import Mathlib

/-!
# Verification of the LightBot schedule / notification engine

Shallow embedding of the core of `src/app.py` (power-availability schedule
interpretation and the notification pipeline) together with theorems checking
the natural-language specification against it.

Modelling conventions:

* Times of day are modelled as minutes since midnight (`Nat`, `0 ≤ t < 1440`
  for in-day instants).  The Python code stores times as zero-padded `"HH:MM"`
  strings and compares them lexicographically; for zero-padded strings the
  lexicographic order coincides with the numeric order on minutes, so interval
  bounds are embedded as their minute values.  The literal end `"24:00"` is
  embedded as `1440` and the source's rewrite `if end == "24:00": end = "23:59"`
  becomes `1440 ↦ 1439` (`normEnd`).
* The reference wall-clock instant `datetime.now()` is a parameter: `nowSec`
  (seconds since midnight, `Nat`) where the schedule computation truncates it
  to minutes (`now.strftime("%H:%M")` becomes `nowSec / 60`), and a rational
  `now` for the notification cycle (which subtracts full datetimes).
* The module `app.py` contains two concatenated iterations of the program.
  `EnergyProvider` is defined once.  `NotificationManager`, the handlers and
  `ScheduleData` are defined more than once; the embedding follows the later
  `NotificationManager.check_all_chats` (the definition the module binds after
  executing to the end, and the one with the Forbidden-handling) and the
  `ScheduleData` variant whose fields match both construction sites
  (`_process_intervals` and `_error_response`): `status, message, timeline,
  next_event_time, next_event_type, updated_at`.
* Fallible I/O (the upstream HTTP fetch, Telegram message delivery) is
  modelled by explicit result values (`Upstream`, `SendResult`) supplied as
  parameters.
-/

namespace LightBot

/-- `class LightStatus(Enum)` from `app.py`. -/
inductive LightStatus where
  | ON
  | OFF
  | POSSIBLE
  | UNKNOWN
deriving DecidableEq, Repr

/-- One entry of `data["data"]["today"]["intervals"]`: a dict with `"start"`,
`"end"` and `"status"` keys.  `start`/`stop` are minutes since midnight (the
source holds `"HH:MM"` strings, compared lexicographically, which for
zero-padded strings is the numeric order); `stop` models the `"end"` key
(`end` is a reserved word in Lean).  `status` is the raw status code string
(`"on"`, `"off"`, `"maybe"`, or anything else the upstream sends). -/
structure RawInterval where
  start : Nat
  stop : Nat
  status : String
deriving DecidableEq, Repr

/-- `@dataclass class ScheduleData` (the variant whose field list matches the
construction sites in `EnergyProvider`).  `next_event_time` is the minute of
day of the `datetime` the source builds via
`datetime.strptime(f_time, "%H:%M").replace(year=..., month=..., day=...)`. -/
structure ScheduleData where
  status : LightStatus
  message : String
  timeline : String
  next_event_time : Option Nat
  next_event_type : String
  updated_at : String
deriving DecidableEq, Repr

/-- `@dataclass class ChatConfig`. -/
structure ChatConfig where
  queue : String := "1"
  subqueue : String := "1"
  notifications_enabled : Bool := false
  last_notified_event : Option String := none
deriving DecidableEq, Repr

/-- Decimal digit character, used to model `strftime`'s zero-padded fields. -/
def digitChar (d : Nat) : Char := Char.ofNat (48 + d)

/-- Two-digit zero-padded decimal rendering (`%H` / `%M` of `strftime`). -/
def pad2 (n : Nat) : String := String.mk [digitChar (n / 10), digitChar (n % 10)]

/-- `t.strftime("%H:%M")` for a time of day given in minutes since midnight. -/
def formatHM (t : Nat) : String := pad2 (t / 60) ++ ":" ++ pad2 (t % 60)

/-- The source's normalization `if end == "24:00": end = "23:59"`. -/
def normEnd (e : Nat) : Nat := if e = 1440 then 1439 else e

/-- The dict lookup
`{"on": LightStatus.ON, "off": LightStatus.OFF, "maybe": LightStatus.POSSIBLE}.get(code, LightStatus.UNKNOWN)`. -/
def statusOfCode (code : String) : LightStatus :=
  if code = "on" then LightStatus.ON
  else if code = "off" then LightStatus.OFF
  else if code = "maybe" then LightStatus.POSSIBLE
  else LightStatus.UNKNOWN

/-- Timeline glyph: `"🟦" if status == "on" else "⬛" if status == "off" else "⬜"`. -/
def glyph (status : String) : String :=
  if status = "on" then "🟦" else if status = "off" then "⬛" else "⬜"

/-- `intervals[i] for i in range(0, len(intervals), 2)`: every other element. -/
def everyOther : List RawInterval → List RawInterval
  | [] => []
  | [a] => [a]
  | a :: _ :: rest => a :: everyOther rest

/-- The timeline string built in step 1 of `_process_intervals`. -/
def timelineStr (intervals : List RawInterval) : String :=
  String.join ((everyOther intervals).map (fun iv => glyph iv.status))

/-- The scan `for i, interval in enumerate(intervals): ... if start <= now_str <= end: ... break`:
returns the first interval containing `nowMin` in the closed range
`[start, normEnd stop]`, together with the remaining intervals
(`intervals[i+1:]`). -/
def findCurrent (nowMin : Nat) : List RawInterval → Option (RawInterval × List RawInterval)
  | [] => none
  | iv :: rest =>
      if iv.start ≤ nowMin ∧ nowMin ≤ normEnd iv.stop then some (iv, rest)
      else findCurrent nowMin rest

/-- The inner scan `for future in intervals[i+1:]: if future["status"] != current_status_code: ... break`:
first interval whose raw status code differs from `code`. -/
def findNextChange (code : String) : List RawInterval → Option RawInterval
  | [] => none
  | iv :: rest => if iv.status ≠ code then some iv else findNextChange code rest

/-- `next_change_type = "Включення 💡" if future["status"] == "on" else "Відключення 🔌"`. -/
def transitionType (status : String) : String :=
  if status = "on" then "Включення 💡" else "Відключення 🔌"

/-- The header dict lookup in step 3 of `_process_intervals`. -/
def headerOf (s : LightStatus) : String :=
  match s with
  | LightStatus.ON => "💎 СВІТЛО Є"
  | LightStatus.OFF => "🌑 СВІТЛА НЕМАЄ"
  | LightStatus.POSSIBLE => "⚠️ МОЖЛИВЕ ВІДКЛЮЧЕННЯ"
  | LightStatus.UNKNOWN => "❓ СТАТУС НЕВИЗНАЧЕНИЙ"

/-- `EnergyProvider._process_intervals(self, intervals, group_name)`.
`nowSec` models `datetime.now()` as seconds since midnight; `now_str`
becomes `nowSec / 60` (minutes), `now.hour` becomes `nowSec / 3600`.
The cache store `self.cache[group_name] = res` performed at the end of the
source function is modelled at the call site (`fetch_schedule`). -/
def process_intervals (nowSec : Nat) (intervals : List RawInterval) (group_name : String) :
    ScheduleData :=
  let nowMin := nowSec / 60
  let timeline_str := timelineStr intervals
  let found := findCurrent nowMin intervals
  let current_status : LightStatus :=
    match found with
    | none => LightStatus.UNKNOWN
    | some (iv, _) => statusOfCode iv.status
  let nextFound : Option RawInterval :=
    match found with
    | none => none
    | some (iv, rest) => findNextChange iv.status rest
  let next_change_dt : Option Nat := nextFound.map (fun fut => fut.start)
  let next_change_type : String :=
    match nextFound with
    | none => ""
    | some fut => transitionType fut.status
  let header := headerOf current_status
  let pointer := String.mk (List.replicate (nowSec / 3600) ' ') ++ "⬆️"
  let msg :=
    "📊 **Черга " ++ group_name ++ "**\n\n" ++
    "**" ++ header ++ "**\n" ++
    (match next_change_dt with
     | some t => "🕔 " ++ next_change_type ++ " о **" ++ formatHM t ++ "**\n"
     | none => "✅ До кінця доби змін не планується\n") ++
    "\n**Графік на сьогодні:**\n" ++
    "`" ++ timeline_str ++ "`\n" ++
    "`" ++ pointer ++ "`\n" ++
    "`00   06   12   18   24`\n\n" ++
    "🟦 _є_ | ⬛ _нема_ | ⬜ _можливо_"
  { status := current_status
    message := msg
    timeline := timeline_str
    next_event_time := next_change_dt
    next_event_type := next_change_type
    updated_at := formatHM nowMin }

/-- `EnergyProvider._error_response(self, text)`. -/
def error_response (text : String) (nowSec : Nat) : ScheduleData :=
  { status := LightStatus.UNKNOWN
    message := text
    timeline := ""
    next_event_time := none
    next_event_type := ""
    updated_at := formatHM (nowSec / 60) }

/-- One entry of the provider's `TTLCache(maxsize=1000, ttl=60)`: the key, the
absolute expiry instant (insertion time + 60 seconds) and the stored value. -/
structure CacheEntry where
  key : String
  expiresAt : ℚ
  value : ScheduleData
deriving DecidableEq

/-- `cache_key in self.cache` / `self.cache[cache_key]` of a `TTLCache` at
wall-clock instant `τ`: the first entry with that key that has not expired. -/
def cacheLookup (entries : List CacheEntry) (key : String) (τ : ℚ) : Option ScheduleData :=
  match entries with
  | [] => none
  | e :: rest => if e.key = key ∧ τ < e.expiresAt then some e.value else cacheLookup rest key τ

/-- `self.cache[k] = v` of a `TTLCache` with `ttl=60` at instant `τ`. -/
def cacheInsert (entries : List CacheEntry) (key : String) (τ : ℚ) (v : ScheduleData) :
    List CacheEntry :=
  { key := key, expiresAt := τ + 60, value := v } :: entries

/-- Outcome of the upstream HTTP request in `fetch_schedule`:
`fetchError` is any exception raised inside the `try` block (network error,
timeout, malformed JSON, missing keys — all land in `except Exception`);
`noSuccess` is a parsed response with a falsy `success` flag;
`ok` is a successful response carrying `data["data"]["today"]["intervals"]`. -/
inductive Upstream where
  | fetchError
  | noSuccess
  | ok (intervals : List RawInterval)

/-- `EnergyProvider.fetch_schedule(self, queue, subqueue)`.
`upstream` is the outcome of the HTTP request, `nowSec` the wall-clock
`datetime.now()` reading (seconds since midnight) used by
`_process_intervals`, `τ` the wall-clock instant used by the `TTLCache`,
`cache` the cache state.  Returns the `ScheduleData` and the new cache state
(the store `self.cache[group_name] = res` at the end of `_process_intervals`
is modelled here, at its unique call site). -/
def fetch_schedule (upstream : Upstream) (nowSec : Nat) (τ : ℚ) (queue subqueue : String)
    (cache : List CacheEntry) : ScheduleData × List CacheEntry :=
  let cache_key := queue ++ "_" ++ subqueue
  match cacheLookup cache cache_key τ with
  | some v => (v, cache)
  | none =>
    match upstream with
    | Upstream.fetchError => (error_response "❌ Помилка з'єднання з сервером" nowSec, cache)
    | Upstream.noSuccess => (error_response "⚠️ Дані на сайті тимчасово недоступні" nowSec, cache)
    | Upstream.ok intervals =>
        let group_name := queue ++ "." ++ subqueue
        let res := process_intervals nowSec intervals group_name
        (res, cacheInsert cache group_name τ res)

/-! ## Notification engine (`NotificationManager.check_all_chats`, the later
definition in the module, lines 369–413 of `app.py`) -/

/-- Substring test on char lists (`needle` occurs as a leading segment). -/
def leadsWith : List Char → List Char → Bool
  | [], _ => true
  | _ :: _, [] => false
  | a :: as, b :: bs => if a = b then leadsWith as bs else false

/-- Substring test on char lists (`needle` occurs somewhere). -/
def containsSeq (needle : List Char) : List Char → Bool
  | [] => leadsWith needle []
  | c :: rest => leadsWith needle (c :: rest) || containsSeq needle rest

/-- Python's `needle in hay` on strings, used for `"Forbidden" in str(e)`. -/
def strContains (hay needle : String) : Bool := containsSeq needle.data hay.data

/-- Outcome of `await self.bot.send_message(chat_id, ...)`: success, or an
exception `e` carrying the text `str(e)`. -/
inductive SendResult where
  | Ok
  | Error (msg : String)

/-- `chats_db : Dict[int, ChatConfig]` as an association list in dict
insertion order (Python dict keys are unique; theorems that need this carry a
`Nodup` hypothesis on the keys). -/
def dbGet (db : List (Nat × ChatConfig)) (cid : Nat) : Option ChatConfig :=
  match db with
  | [] => none
  | (k, c) :: rest => if k = cid then some c else dbGet rest cid

/-- In-place mutation of `chats_db[cid]` (Python mutates the `ChatConfig`
object; the entry's key set is unchanged). -/
def dbSet (db : List (Nat × ChatConfig)) (cid : Nat) (c : ChatConfig) :
    List (Nat × ChatConfig) :=
  match db with
  | [] => []
  | (k, c0) :: rest => if k = cid then (k, c) :: rest else (k, c0) :: dbSet rest cid c

/-- `subscriptions.setdefault`-style grouping step: append `cid` to the group
with key `key`, creating the group if absent (the source builds
`key = f"{config.queue}|{config.subqueue}"` and later recovers the pair with
`key.split("|")`; for `"|"`-free components — all the bot ever produces — that
round-trips, so the key is embedded directly as the pair). -/
def addChat (gs : List ((String × String) × List Nat)) (key : String × String) (cid : Nat) :
    List ((String × String) × List Nat) :=
  match gs with
  | [] => [(key, [cid])]
  | (k, l) :: rest =>
      if k = key then (k, l ++ [cid]) :: rest else (k, l) :: addChat rest key cid

/-- The grouping loop at the top of `check_all_chats`: all chats with
`notifications_enabled` grouped by `(queue, subqueue)` in first-seen order. -/
def groupChats (db : List (Nat × ChatConfig)) : List ((String × String) × List Nat) :=
  db.foldl
    (fun gs p => if p.2.notifications_enabled then addChat gs (p.2.queue, p.2.subqueue) p.1 else gs)
    []

/-- `event_uid = f"{data.next_event_time.strftime('%H:%M')}_{data.next_event_type}"`. -/
def eventUid (t : Nat) (ty : String) : String := formatHM t ++ "_" ++ ty

/-- The alert text sent by `check_all_chats`. -/
def notifyText (ty : String) (t : Nat) : String :=
  "⚠️ **Увага!**\nЧерез 15 хвилин планується **" ++ ty ++ "**!\nЧас: " ++ formatHM t

/-- The per-cycle environment of `check_all_chats`: the provider's behaviour
(`fetch_schedule` for each group key), the delivery outcome for each chat, and
the cycle's wall-clock reference `now` in seconds since midnight (the source
reads `datetime.now()` once per group iteration; the model takes the cycle's
reference instant as a parameter). -/
structure CycleEnv where
  snapshot : String → String → ScheduleData
  deliver : Nat → SendResult
  now : ℚ

/-- Observable result of one notification cycle: the final `chats_db`, the
successfully delivered `(chat_id, text)` messages in order, and the chats for
which a delivery was attempted (`bot.send_message` was entered). -/
structure CycleOut where
  db : List (Nat × ChatConfig)
  sent : List (Nat × String)
  attempted : List Nat

/-- The per-chat body of `check_all_chats` (dedup test, send, success /
failure handling).  A chat missing from `chats_db` is skipped (unreachable:
the grouping enumerates the same dict, where Python would raise `KeyError`). -/
def stepChat (env : CycleEnv) (uid msgText : String) (acc : CycleOut) (cid : Nat) : CycleOut :=
  match dbGet acc.db cid with
  | none => acc
  | some cfg =>
      if cfg.last_notified_event = some uid then acc
      else
        match env.deliver cid with
        | SendResult.Ok =>
            { db := dbSet acc.db cid { cfg with last_notified_event := some uid }
              sent := acc.sent ++ [(cid, msgText)]
              attempted := acc.attempted ++ [cid] }
        | SendResult.Error m =>
            if strContains m "Forbidden" then
              { db := dbSet acc.db cid { cfg with notifications_enabled := false }
                sent := acc.sent
                attempted := acc.attempted ++ [cid] }
            else
              { acc with attempted := acc.attempted ++ [cid] }

/-- The per-group body of `check_all_chats`: fetch the snapshot, skip if no
`next_event_time`, test the 14–16 minute window, and notify the group's
chats.  `minutes_left = (data.next_event_time - now).total_seconds() / 60`
where `next_event_time` is today's date at minute `t` (second 0). -/
def stepGroup (env : CycleEnv) (acc : CycleOut) (g : (String × String) × List Nat) : CycleOut :=
  let data := env.snapshot g.1.1 g.1.2
  match data.next_event_time with
  | none => acc
  | some t =>
      let minutes_left : ℚ := (60 * (t : ℚ) - env.now) / 60
      if 14 ≤ minutes_left ∧ minutes_left ≤ 16 then
        g.2.foldl (stepChat env (eventUid t data.next_event_type)
                     (notifyText data.next_event_type t)) acc
      else acc

/-- `NotificationManager.check_all_chats` (one notification cycle). -/
def check_all_chats (env : CycleEnv) (db : List (Nat × ChatConfig)) : CycleOut :=
  (groupChats db).foldl (stepGroup env) { db := db, sent := [], attempted := [] }

/-- The event id of the group `(q, sq)`'s pending transition under `env`, if
any: what `check_all_chats` computes as `event_uid` from that group's
snapshot. -/
def groupUid (env : CycleEnv) (q sq : String) : Option String :=
  match (env.snapshot q sq).next_event_time with
  | none => none
  | some t => some (eventUid t (env.snapshot q sq).next_event_type)

/-- All chat ids appearing in a grouping, in order (used to reason about each
chat being visited at most once per cycle). -/
def chatsOf (gs : List ((String × String) × List Nat)) : List Nat :=
  (gs.map (fun g => g.2)).flatten

/-! ## Spec-side definitions (for refinement comparisons)

These definitions follow the specification's words, not the source, and exist
only to be compared with the source-derived definitions above. -/

/-- Modelled from the spec: "the status of the unique interval whose
`[start, end)` contains `now`" — half-open containment on the raw bounds
(a raw end of `24:00` = minute 1440 makes the half-open range reach the last
valid instant 23:59 of the day). -/
def specFind (nowMin : Nat) : List RawInterval → Option RawInterval
  | [] => none
  | iv :: rest =>
      if iv.start ≤ nowMin ∧ nowMin < iv.stop then some iv else specFind nowMin rest

/-- Modelled from the spec: the current status per the half-open rule;
`UNKNOWN` when `now` falls in no interval. -/
def specCurrentStatus (nowMin : Nat) (l : List RawInterval) : LightStatus :=
  match specFind nowMin l with
  | none => LightStatus.UNKNOWN
  | some iv => statusOfCode iv.status

/-- Well-formedness of a day's interval list starting at minute `t`:
contiguous, non-empty ranges, ordered, ending exactly at minute 1440
(`24:00`).  `coversFrom 0 l` says `l` is a valid full-day sequence. -/
def coversFrom : Nat → List RawInterval → Bool
  | t, [] => t = 1440
  | t, iv :: rest => (iv.start = t && iv.start < iv.stop) && coversFrom iv.stop rest

/-! ## Concrete data used by witnesses and counterexamples -/

/-- The spec §8 end-to-end day: `[{00:00–06:00 OFF}, {06:00–18:00 ON}, {18:00–24:00 OFF}]`. -/
def exDay : List RawInterval :=
  [{ start := 0, stop := 360, status := "off" },
   { start := 360, stop := 1080, status := "on" },
   { start := 1080, stop := 1440, status := "off" }]

/-- A two-interval day with a transition at 06:00, used at boundary instants. -/
def exBoundary : List RawInterval :=
  [{ start := 0, stop := 360, status := "off" },
   { start := 360, stop := 1440, status := "on" }]

/-- A day whose first status change after midnight is to `maybe`. -/
def exMaybe : List RawInterval :=
  [{ start := 0, stop := 360, status := "on" },
   { start := 360, stop := 720, status := "maybe" },
   { start := 720, stop := 1440, status := "off" }]

/-- Like `exMaybe` but the first change is to `off`. -/
def exOff : List RawInterval :=
  [{ start := 0, stop := 360, status := "on" },
   { start := 360, stop := 720, status := "off" },
   { start := 720, stop := 1440, status := "off" }]

/-- A day containing an unrecognized status code (`"shutdown"`). -/
def exWeird : List RawInterval :=
  [{ start := 0, stop := 360, status := "shutdown" },
   { start := 360, stop := 1440, status := "on" }]

/-- A snapshot whose pending transition is at 18:00 of type `Відключення 🔌`
(what `process_intervals` computes for `exDay` during the ON stretch). -/
def exSnap : ScheduleData :=
  process_intervals (17 * 3600 + 46 * 60) exDay "1.1"

/-- A cycle environment: every group sees `exSnap`, delivery succeeds, and
`now` is 17:46:00 (the transition is 14 minutes away). -/
def exEnv : CycleEnv :=
  { snapshot := fun _ _ => exSnap
    deliver := fun _ => SendResult.Ok
    now := 17 * 3600 + 46 * 60 }

/-- A single enabled subscriber on group `1.1` that has not been notified. -/
def exDb : List (Nat × ChatConfig) :=
  [(5, { queue := "1", subqueue := "1", notifications_enabled := true,
         last_notified_event := none })]

/-- Like `exDb` but already notified of `exSnap`'s event. -/
def exDbNotified : List (Nat × ChatConfig) :=
  [(5, { queue := "1", subqueue := "1", notifications_enabled := true,
         last_notified_event := some "18:00_Відключення 🔌" })]

/-- A cycle environment at an arbitrary reference instant `q` (seconds since
midnight): every group sees `exSnap`, delivery succeeds. -/
def exEnvAt (q : ℚ) : CycleEnv :=
  { snapshot := fun _ _ => exSnap
    deliver := fun _ => SendResult.Ok
    now := q }

/-- Like `exEnvAt 63960` (17:46:00) but every delivery raises a Telegram
`Forbidden` error (the bot was blocked). -/
def exEnvForbidden : CycleEnv :=
  { snapshot := fun _ _ => exSnap
    deliver := fun _ => SendResult.Error "Telegram server says - Forbidden: bot was blocked by the user"
    now := 63960 }

/-- Like `exEnvAt 63960` but every delivery raises a transient network
error (not a `Forbidden` one). -/
def exEnvFlaky : CycleEnv :=
  { snapshot := fun _ _ => exSnap
    deliver := fun _ => SendResult.Error "Telegram server says - Bad Gateway"
    now := 63960 }

/-- A subscriber who was notified of group `1.1`'s 18:00 event and has since
switched the chat to group `2.1`. -/
def exDbSwitched : List (Nat × ChatConfig) :=
  [(5, { queue := "2", subqueue := "1", notifications_enabled := true,
         last_notified_event := some "18:00_Відключення 🔌" })]

/-! ## Basic lemmas -/

theorem cacheLookup_none_mono (entries : List CacheEntry) (key : String) (τ τ' : ℚ)
    (hle : τ ≤ τ') (h : cacheLookup entries key τ = none) :
    cacheLookup entries key τ' = none := by
  induction entries with
  | nil => rfl
  | cons e rest ih =>
      rw [cacheLookup] at h ⊢
      by_cases hk : e.key = key ∧ τ' < e.expiresAt
      · exact absurd h (by simp [cacheLookup, hk.1, lt_of_le_of_lt hle hk.2])
      · rw [if_neg hk]
        refine ih ?_
        by_cases hk1 : e.key = key ∧ τ < e.expiresAt
        · rw [if_pos hk1] at h; exact absurd h (by simp)
        · rwa [if_neg hk1] at h

theorem process_intervals_status_some (nowSec : Nat) (l : List RawInterval) (g : String)
    (iv : RawInterval) (rest : List RawInterval)
    (hc : findCurrent (nowSec / 60) l = some (iv, rest)) :
    (process_intervals nowSec l g).status = statusOfCode iv.status := by
  simp [process_intervals, hc]

theorem process_intervals_status_none (nowSec : Nat) (l : List RawInterval) (g : String)
    (hc : findCurrent (nowSec / 60) l = none) :
    (process_intervals nowSec l g).status = LightStatus.UNKNOWN := by
  simp [process_intervals, hc]

theorem process_intervals_next_some (nowSec : Nat) (l : List RawInterval) (g : String)
    (iv : RawInterval) (rest : List RawInterval)
    (hc : findCurrent (nowSec / 60) l = some (iv, rest)) :
    (process_intervals nowSec l g).next_event_time
      = (findNextChange iv.status rest).map (fun fut => fut.start) := by
  simp [process_intervals, hc]

theorem process_intervals_type_some (nowSec : Nat) (l : List RawInterval) (g : String)
    (iv : RawInterval) (rest : List RawInterval) (fut : RawInterval)
    (hc : findCurrent (nowSec / 60) l = some (iv, rest))
    (hn : findNextChange iv.status rest = some fut) :
    (process_intervals nowSec l g).next_event_type = transitionType fut.status := by
  simp [process_intervals, hc, hn]

theorem findNextChange_eq_some (code : String) (l : List RawInterval) (fut : RawInterval)
    (h : findNextChange code l = some fut) :
    ∃ pre suf, l = pre ++ fut :: suf ∧ (∀ x ∈ pre, x.status = code) ∧ fut.status ≠ code := by
  induction l with
  | nil => simp [findNextChange] at h
  | cons iv rest ih =>
      rw [findNextChange] at h
      by_cases hs : iv.status ≠ code
      · rw [if_pos hs] at h
        obtain rfl : iv = fut := Option.some.inj h
        exact ⟨[], rest, rfl, by simp, hs⟩
      · rw [if_neg hs] at h
        obtain ⟨pre, suf, hl, hpre, hfut⟩ := ih h
        exact ⟨iv :: pre, suf, by simp [hl], by
          intro x hx
          rcases List.mem_cons.mp hx with h1 | h2
          · simpa [h1] using not_not.mp hs
          · exact hpre x h2, hfut⟩

theorem findNextChange_eq_none (code : String) (l : List RawInterval)
    (h : ∀ x ∈ l, x.status = code) : findNextChange code l = none := by
  induction l with
  | nil => rfl
  | cons iv rest ih =>
      rw [findNextChange, if_neg (by simpa using h iv (by simp))]
      exact ih fun x hx => h x (List.mem_cons_of_mem _ hx)

/-! ## C4 — schedule cache -/

/-- C4 (code_bug evidence): the cache is keyed inconsistently.  A successful
fetch for queue `1`, subqueue `1` stores the snapshot under `"1.1"`, but the
next `fetch_schedule` call looks the key up as `"1_1"`, misses, and consults
the data source again 30 seconds later: the second call returns whatever the
upstream now yields (here a connection-error `UNKNOWN` snapshot) instead of
the cached `OFF` snapshot. -/
theorem c4_cache_never_hit :
    (fetch_schedule (Upstream.ok exDay) 7200 0 "1" "1" []).1.status = LightStatus.OFF
    ∧ cacheLookup (fetch_schedule (Upstream.ok exDay) 7200 0 "1" "1" []).2 "1_1" 30 = none
    ∧ (cacheLookup (fetch_schedule (Upstream.ok exDay) 7200 0 "1" "1" []).2 "1.1" 30).isSome
        = true
    ∧ (fetch_schedule Upstream.fetchError 7200 30 "1" "1"
        (fetch_schedule (Upstream.ok exDay) 7200 0 "1" "1" []).2).1.status
        = LightStatus.UNKNOWN := by
  have hkey : ("1" ++ "." ++ "1" : String) ≠ "1" ++ "_" ++ "1" := by decide
  have hkey2 : ("1" ++ "." ++ "1" : String) ≠ "1_1" := by decide
  refine ⟨rfl, ?_, ?_, ?_⟩
  · simp only [fetch_schedule, cacheLookup, cacheInsert]
    norm_num [hkey2]
  · simp only [fetch_schedule, cacheLookup, cacheInsert]
    norm_num
    decide
  · simp only [fetch_schedule, cacheLookup, cacheInsert]
    norm_num [hkey]
    rfl

/-! ## C7 — fetch failures -/

/-- C7: when the upstream fetch fails (an exception or a response without
`success`), `fetch_schedule` returns an `UNKNOWN` snapshot with no next
transition (it never propagates the failure), the cache is left unchanged, and
a later call for the same key consults the data source again (a subsequent
successful fetch recomputes a fresh snapshot instead of serving a cached
failure). -/
theorem c7_failure_not_cached (up : Upstream)
    (hup : up = Upstream.fetchError ∨ up = Upstream.noSuccess)
    (nowSec : Nat) (τ : ℚ) (q sq : String) (cache : List CacheEntry)
    (hmiss : cacheLookup cache (q ++ "_" ++ sq) τ = none) :
    (fetch_schedule up nowSec τ q sq cache).1.status = LightStatus.UNKNOWN
    ∧ (fetch_schedule up nowSec τ q sq cache).1.next_event_time = none
    ∧ (fetch_schedule up nowSec τ q sq cache).2 = cache
    ∧ ∀ τ' ivs nowSec', τ ≤ τ' →
        (fetch_schedule (Upstream.ok ivs) nowSec' τ' q sq
            (fetch_schedule up nowSec τ q sq cache).2).1
          = process_intervals nowSec' ivs (q ++ "." ++ sq) := by
  have hbase : fetch_schedule up nowSec τ q sq cache
      = ((match up with
          | Upstream.fetchError => error_response "❌ Помилка з'єднання з сервером" nowSec
          | Upstream.noSuccess => error_response "⚠️ Дані на сайті тимчасово недоступні" nowSec
          | Upstream.ok ivs => process_intervals nowSec ivs (q ++ "." ++ sq)),
         (match up with
          | Upstream.ok ivs =>
              cacheInsert cache (q ++ "." ++ sq) τ (process_intervals nowSec ivs (q ++ "." ++ sq))
          | _ => cache)) := by
    rcases hup with h | h <;> subst h <;> simp [fetch_schedule, hmiss]
  have hc : (fetch_schedule up nowSec τ q sq cache).2 = cache := by
    rw [hbase]; rcases hup with h | h <;> subst h <;> rfl
  refine ⟨?_, ?_, hc, ?_⟩
  · rw [hbase]; rcases hup with h | h <;> subst h <;> rfl
  · rw [hbase]; rcases hup with h | h <;> subst h <;> rfl
  · intro τ' ivs nowSec' hle
    rw [hc, fetch_schedule, cacheLookup_none_mono cache (q ++ "_" ++ sq) τ τ' hle hmiss]

/-- Witness for C7 at a concrete input: empty cache, network failure, then a
successful refetch 10 seconds later. -/
theorem c7_witness :
    cacheLookup [] ("1" ++ "_" ++ "1") 0 = none
    ∧ (fetch_schedule Upstream.fetchError 7200 0 "1" "1" []).1.status = LightStatus.UNKNOWN
    ∧ (fetch_schedule Upstream.fetchError 7200 0 "1" "1" []).1.next_event_time = none
    ∧ (fetch_schedule Upstream.fetchError 7200 0 "1" "1" []).2 = []
    ∧ (fetch_schedule (Upstream.ok exDay) 7200 10 "1" "1"
        (fetch_schedule Upstream.fetchError 7200 0 "1" "1" []).2).1
        = process_intervals 7200 exDay ("1" ++ "." ++ "1") := by
  have h := c7_failure_not_cached Upstream.fetchError (Or.inl rfl) 7200 0 "1" "1" [] rfl
  exact ⟨rfl, h.1, h.2.1, h.2.2.1, h.2.2.2 10 exDay 7200 (by norm_num)⟩

/-! ## C9 — `MAYBE` transitions are folded into the OFF transition type -/

/-- C9 (counterexample): with current status `on`, a first differing interval
of status `maybe` yields exactly the same `next_event_type` as one of status
`off` — the string `"Відключення 🔌"` — so `MAYBE` is not a distinct
notifiable transition type. -/
theorem c9_counterexample :
    (process_intervals 0 exMaybe "g").next_event_type
      = (process_intervals 0 exOff "g").next_event_type
    ∧ (process_intervals 0 exMaybe "g").next_event_type = "Відключення 🔌"
    ∧ (process_intervals 0 exMaybe "g").status = LightStatus.ON
    ∧ (process_intervals 0 exMaybe "g").next_event_time = some 360 := by
  refine ⟨?_, ?_, ?_, ?_⟩ <;> decide

/-- C9 (amended): whenever the scan finds a next differing interval, the
transition type is one of exactly two strings — `"Включення 💡"` when the
future status is `"on"` and `"Відключення 🔌"` otherwise — so a `MAYBE`
future interval is silently folded into the OFF transition type rather than
getting a distinct type of its own. -/
theorem c9_amended (nowSec : Nat) (l : List RawInterval) (g : String)
    (iv : RawInterval) (rest : List RawInterval) (fut : RawInterval)
    (hc : findCurrent (nowSec / 60) l = some (iv, rest))
    (hn : findNextChange iv.status rest = some fut) :
    ((process_intervals nowSec l g).next_event_type = "Включення 💡"
      ∨ (process_intervals nowSec l g).next_event_type = "Відключення 🔌")
    ∧ (fut.status = "maybe" →
        (process_intervals nowSec l g).next_event_type = "Відключення 🔌") := by
  have ht : (process_intervals nowSec l g).next_event_type = transitionType fut.status :=
    process_intervals_type_some nowSec l g iv rest fut hc hn
  constructor
  · rw [ht, transitionType]
    by_cases hon : fut.status = "on"
    · exact Or.inl (by rw [if_pos hon])
    · exact Or.inr (by rw [if_neg hon])
  · intro hm
    rw [ht, transitionType, if_neg (by rw [hm]; decide)]

/-- Witness for C9's amended theorem at the concrete `exMaybe` day. -/
theorem c9_witness :
    findCurrent (0 / 60) exMaybe
        = some ({ start := 0, stop := 360, status := "on" },
                [{ start := 360, stop := 720, status := "maybe" },
                 { start := 720, stop := 1440, status := "off" }])
    ∧ findNextChange "on"
        [{ start := 360, stop := 720, status := "maybe" },
         { start := 720, stop := 1440, status := "off" }]
        = some { start := 360, stop := 720, status := "maybe" }
    ∧ (process_intervals 0 exMaybe "g").next_event_type = "Відключення 🔌" := by
  refine ⟨by decide, by decide, ?_⟩
  exact (c9_amended 0 exMaybe "g"
    { start := 0, stop := 360, status := "on" }
    [{ start := 360, stop := 720, status := "maybe" },
     { start := 720, stop := 1440, status := "off" }]
    { start := 360, stop := 720, status := "maybe" }
    (by decide) (by decide)).2 (by decide)

/-! ## C10 — unrecognized status codes -/

/-- C10: an interval whose status code is none of `"on"`, `"off"`, `"maybe"`
does not break the snapshot computation: its timeline glyph is the hatched
glyph `"⬜"` (the same glyph `"maybe"` gets), and when it contains `now` the
current status is `UNKNOWN` while the next-transition scan is still performed
over the raw status codes. -/
theorem c10_unknown_code_handled (s : String) (nowSec : Nat) (l : List RawInterval) (g : String)
    (iv : RawInterval) (rest : List RawInterval)
    (hs1 : s ≠ "on") (hs2 : s ≠ "off") (hs3 : s ≠ "maybe")
    (hiv : iv.status = s) (hc : findCurrent (nowSec / 60) l = some (iv, rest)) :
    glyph s = "⬜"
    ∧ glyph s = glyph "maybe"
    ∧ (process_intervals nowSec l g).status = LightStatus.UNKNOWN
    ∧ (process_intervals nowSec l g).next_event_time
        = (findNextChange s rest).map (fun fut => fut.start) := by
  refine ⟨by rw [glyph, if_neg hs1, if_neg hs2], ?_, ?_, ?_⟩
  · rw [glyph, if_neg hs1, if_neg hs2]; rfl
  · rw [process_intervals_status_some nowSec l g iv rest hc]
    simp only [statusOfCode, hiv, if_neg hs1, if_neg hs2, if_neg hs3]
  · rw [process_intervals_next_some nowSec l g iv rest hc, hiv]

/-- Witness for C10 at the concrete `exWeird` day (`"shutdown"` status
containing `now = 01:00`): status is `UNKNOWN` and the scan still finds the
06:00 transition from the raw codes. -/
theorem c10_witness :
    ("shutdown" ≠ "on" ∧ "shutdown" ≠ "off" ∧ "shutdown" ≠ "maybe")
    ∧ glyph "shutdown" = "⬜"
    ∧ (process_intervals 3600 exWeird "g").status = LightStatus.UNKNOWN
    ∧ (process_intervals 3600 exWeird "g").next_event_time
        = (findNextChange "shutdown" [{ start := 360, stop := 1440, status := "on" }]).map
            (fun fut => fut.start) := by
  have h := c10_unknown_code_handled "shutdown" 3600 exWeird "g"
    { start := 0, stop := 360, status := "shutdown" }
    [{ start := 360, stop := 1440, status := "on" }]
    (by decide) (by decide) (by decide) rfl (by decide)
  exact ⟨⟨by decide, by decide, by decide⟩, h.1, h.2.2.1, h.2.2.2⟩

/-! ## C2 — current status -/

theorem findCurrent_eq_none (nowMin : Nat) (l : List RawInterval)
    (h : ∀ iv ∈ l, ¬(iv.start ≤ nowMin ∧ nowMin ≤ normEnd iv.stop)) :
    findCurrent nowMin l = none := by
  induction l with
  | nil => rfl
  | cons iv rest ih =>
      rw [findCurrent, if_neg (h iv (by simp))]
      exact ih fun x hx => h x (List.mem_cons_of_mem _ hx)

theorem findCurrent_eq_specFind (nowMin : Nat) (l : List RawInterval) (t : Nat)
    (hcov : coversFrom t l = true) (hnow : nowMin < 1440)
    (hnb : ∀ iv ∈ l, 0 < iv.start → iv.start ≠ nowMin) :
    (findCurrent nowMin l).map Prod.fst = specFind nowMin l := by
  induction l generalizing t with
  | nil => rfl
  | cons iv rest ih =>
      rw [coversFrom] at hcov
      simp only [Bool.and_eq_true, decide_eq_true_eq] at hcov
      obtain ⟨⟨hst, hlt⟩, hcov2⟩ := hcov
      have hcond : (iv.start ≤ nowMin ∧ nowMin ≤ normEnd iv.stop)
          ↔ (iv.start ≤ nowMin ∧ nowMin < iv.stop) := by
        by_cases h1440 : iv.stop = 1440
        · rw [normEnd, if_pos h1440, h1440]
          omega
        · rw [normEnd, if_neg h1440]
          have hne : iv.stop ≠ nowMin := by
            cases rest with
            | nil =>
                rw [coversFrom] at hcov2
                simp only [decide_eq_true_eq] at hcov2
                exact absurd hcov2 h1440
            | cons iv2 rest2 =>
                rw [coversFrom] at hcov2
                simp only [Bool.and_eq_true, decide_eq_true_eq] at hcov2
                have h2 : iv2.start ≠ nowMin :=
                  hnb iv2 (by simp) (by omega)
                omega
          omega
      rw [findCurrent, specFind]
      by_cases h : iv.start ≤ nowMin ∧ nowMin < iv.stop
      · rw [if_pos (hcond.mpr h), if_pos h]
        rfl
      · rw [if_neg (fun hh => h (hcond.mp hh)), if_neg h]
        exact ih iv.stop hcov2 (fun x hx => hnb x (List.mem_cons_of_mem _ hx))

/-- C2 (counterexample): on the valid full-day sequence `exBoundary`
(`off` until 06:00, then `on`), at the boundary instant `now = 06:00:00` the
unique interval whose half-open range `[start, end)` contains `now` is the
`on` interval, but the code's scan (`start <= now_str <= end`, closed) returns
the ending `off` interval: the computed current status is `OFF`, not `ON`. -/
theorem c2_counterexample :
    coversFrom 0 exBoundary = true
    ∧ (process_intervals 21600 exBoundary "g").status = LightStatus.OFF
    ∧ specFind (21600 / 60) exBoundary = some { start := 360, stop := 1440, status := "on" }
    ∧ specCurrentStatus (21600 / 60) exBoundary = LightStatus.ON := by
  refine ⟨?_, ?_, ?_, ?_⟩ <;> decide

/-- C2 (amended): on a valid full-day sequence the computed current status
equals the half-open rule's status at every instant whose minute is not an
interior interval boundary (at a boundary minute the code reports the ending
interval's status instead, per `c2_counterexample`); and whenever `now` falls
in no interval of the list (closed containment, `"24:00"` normalized to
`23:59`), the current status is `UNKNOWN`. -/
theorem c2_amended (nowSec : Nat) (l : List RawInterval) (g : String) :
    (coversFrom 0 l = true → nowSec / 60 < 1440 →
        (∀ iv ∈ l, 0 < iv.start → iv.start ≠ nowSec / 60) →
        (process_intervals nowSec l g).status = specCurrentStatus (nowSec / 60) l)
    ∧ ((∀ iv ∈ l, ¬(iv.start ≤ nowSec / 60 ∧ nowSec / 60 ≤ normEnd iv.stop)) →
        (process_intervals nowSec l g).status = LightStatus.UNKNOWN) := by
  constructor
  · intro hcov hnow hnb
    have hmap := findCurrent_eq_specFind (nowSec / 60) l 0 hcov hnow hnb
    rcases hc : findCurrent (nowSec / 60) l with _ | ⟨iv, rest⟩
    · rw [hc] at hmap
      have hmap' : specFind (nowSec / 60) l = none := hmap.symm
      rw [process_intervals_status_none nowSec l g hc, specCurrentStatus, hmap']
    · rw [hc] at hmap
      have hmap' : specFind (nowSec / 60) l = some iv := hmap.symm
      rw [process_intervals_status_some nowSec l g iv rest hc, specCurrentStatus, hmap']
  · intro hno
    exact process_intervals_status_none nowSec l g (findCurrent_eq_none _ _ hno)

/-- Witness for C2's amended theorem: the `exDay` sequence at 17:46 (a
non-boundary instant: status matches the half-open rule, both `ON`), and a
single-morning-interval list at 10:00 (no containing interval: `UNKNOWN`). -/
theorem c2_witness :
    (coversFrom 0 exDay = true
      ∧ (17 * 3600 + 46 * 60) / 60 < 1440
      ∧ (∀ iv ∈ exDay, 0 < iv.start → iv.start ≠ (17 * 3600 + 46 * 60) / 60)
      ∧ (process_intervals (17 * 3600 + 46 * 60) exDay "g").status
          = specCurrentStatus ((17 * 3600 + 46 * 60) / 60) exDay)
    ∧ ((∀ iv ∈ [({ start := 0, stop := 360, status := "off" } : RawInterval)],
          ¬(iv.start ≤ 36000 / 60 ∧ 36000 / 60 ≤ normEnd iv.stop))
      ∧ (process_intervals 36000 [{ start := 0, stop := 360, status := "off" }] "g").status
          = LightStatus.UNKNOWN) := by
  refine ⟨⟨by decide, by decide, by decide, ?_⟩, ⟨by decide, ?_⟩⟩
  · exact (c2_amended (17 * 3600 + 46 * 60) exDay "g").1 (by decide) (by decide) (by decide)
  · exact (c2_amended 36000 [{ start := 0, stop := 360, status := "off" }] "g").2 (by decide)

/-! ## C3 — next transition -/

/-- C3 (counterexample): on the valid day `exBoundary`, at `now = 06:00:30`
the snapshot's `next_event_time` is present (06:00, minute 360) but is NOT
strictly after `now`: the transition instant `60 * 360 = 21600` seconds is
before `now = 21630` seconds.  (The closed-containment scan still matches the
interval ending at 06:00, and the `on` interval starting at the current
minute counts as a "later differing interval".) -/
theorem c3_counterexample :
    coversFrom 0 exBoundary = true
    ∧ (process_intervals 21630 exBoundary "g").next_event_time = some 360
    ∧ 60 * 360 < 21630 := by
  refine ⟨?_, ?_, ?_⟩ <;> decide

/-- C3 (amended): when `next_event_time` is present it is the start of the
earliest interval after the (closed-scan) interval containing `now` whose raw
status differs from the current one; it is strictly after `now` provided the
transition minute is strictly greater than `now`'s minute (at a boundary
instant it can coincide with or precede `now`, per `c3_counterexample`); and
when `now` is second-aligned and the transition is `M = t - now/60` minutes
away, `minutes_left` as computed by the notification cycle equals `M`
exactly.  If no later interval differs, `next_event_time` is absent. -/
theorem c3_amended (nowSec : Nat) (l : List RawInterval) (g : String)
    (iv : RawInterval) (rest : List RawInterval)
    (hc : findCurrent (nowSec / 60) l = some (iv, rest)) :
    (∀ t, (process_intervals nowSec l g).next_event_time = some t →
        (∃ pre fut suf, rest = pre ++ fut :: suf ∧ (∀ x ∈ pre, x.status = iv.status)
            ∧ fut.status ≠ iv.status ∧ fut.start = t)
        ∧ (nowSec / 60 < t → nowSec < 60 * t)
        ∧ (nowSec % 60 = 0 →
            (60 * (t : ℚ) - (nowSec : ℚ)) / 60 = (t : ℚ) - ((nowSec / 60 : Nat) : ℚ)))
    ∧ ((∀ x ∈ rest, x.status = iv.status) →
        (process_intervals nowSec l g).next_event_time = none) := by
  constructor
  · intro t ht
    rw [process_intervals_next_some nowSec l g iv rest hc] at ht
    obtain ⟨fut, hfut, hstart⟩ := Option.map_eq_some'.mp ht
    obtain ⟨pre, suf, hrest, hpre, hne⟩ := findNextChange_eq_some iv.status rest fut hfut
    refine ⟨⟨pre, fut, suf, hrest, hpre, hne, hstart⟩, ?_, ?_⟩
    · omega
    · intro h0
      have h60 : nowSec / 60 * 60 = nowSec := by omega
      have hcast : ((nowSec / 60 : Nat) : ℚ) * 60 = (nowSec : ℚ) := by
        exact_mod_cast h60
      field_simp
      linarith
  · intro hall
    rw [process_intervals_next_some nowSec l g iv rest hc,
      findNextChange_eq_none iv.status rest hall]
    rfl

/-- Witness for C3's amended theorem: `exDay` at 17:46:00 — the transition is
at 18:00 (minute 1080), strictly after `now`, and exactly 14 minutes away. -/
theorem c3_witness :
    findCurrent (63960 / 60) exDay
        = some ({ start := 360, stop := 1080, status := "on" },
                [{ start := 1080, stop := 1440, status := "off" }])
    ∧ (process_intervals 63960 exDay "g").next_event_time = some 1080
    ∧ 63960 < 60 * 1080
    ∧ (60 * (1080 : ℚ) - (63960 : ℚ)) / 60 = (1080 : ℚ) - ((63960 / 60 : Nat) : ℚ)
    ∧ (1080 : ℚ) - ((63960 / 60 : Nat) : ℚ) = 14 := by
  have h := c3_amended 63960 exDay "g"
    { start := 360, stop := 1080, status := "on" }
    [{ start := 1080, stop := 1440, status := "off" }] (by decide)
  have h1 := (h.1 1080 (by decide))
  refine ⟨by decide, by decide, h1.2.1 (by decide), h1.2.2 (by decide), by norm_num⟩

/-! ## Notification engine: store lemmas -/

theorem dbGet_dbSet_ne (db : List (Nat × ChatConfig)) (cid x : Nat) (c : ChatConfig)
    (hx : x ≠ cid) : dbGet (dbSet db cid c) x = dbGet db x := by
  induction db with
  | nil => rfl
  | cons p rest ih =>
      obtain ⟨k, c0⟩ := p
      rw [dbSet]
      by_cases hk : k = cid
      · rw [if_pos hk, dbGet, dbGet, if_neg (by omega), if_neg (by omega)]
      · rw [if_neg hk, dbGet, dbGet]
        by_cases hkx : k = x
        · rw [if_pos hkx, if_pos hkx]
        · rw [if_neg hkx, if_neg hkx]
          exact ih

theorem dbGet_dbSet_self (db : List (Nat × ChatConfig)) (cid : Nat) (c c0 : ChatConfig)
    (h : dbGet db cid = some c0) : dbGet (dbSet db cid c) cid = some c := by
  induction db with
  | nil => simp [dbGet] at h
  | cons p rest ih =>
      obtain ⟨k, c1⟩ := p
      rw [dbGet] at h
      rw [dbSet]
      by_cases hk : k = cid
      · rw [if_pos hk, dbGet, if_pos hk]
      · rw [if_neg hk, dbGet, if_neg hk]
        rw [if_neg hk] at h
        exact ih h

theorem dbSet_keys (db : List (Nat × ChatConfig)) (cid : Nat) (c : ChatConfig) :
    (dbSet db cid c).map Prod.fst = db.map Prod.fst := by
  induction db with
  | nil => rfl
  | cons p rest ih =>
      obtain ⟨k, c0⟩ := p
      rw [dbSet]
      by_cases hk : k = cid
      · rw [if_pos hk]
        simp
      · rw [if_neg hk]
        simpa using ih

theorem dbGet_of_mem_nodup (db : List (Nat × ChatConfig)) (p : Nat × ChatConfig)
    (hnodup : (db.map Prod.fst).Nodup) (hmem : p ∈ db) : dbGet db p.1 = some p.2 := by
  induction db with
  | nil => simp at hmem
  | cons q rest ih =>
      rw [List.map_cons, List.nodup_cons] at hnodup
      rcases List.mem_cons.mp hmem with h | h
      · subst h
        rw [dbGet, if_pos rfl]
      · have hne : q.1 ≠ p.1 := by
          intro he
          exact hnodup.1 (he ▸ List.mem_map_of_mem Prod.fst h)
        rw [dbGet, if_neg hne]
        exact ih hnodup.2 h

/-! ## Notification engine: per-chat step lemmas -/

theorem stepChat_db_ne (env : CycleEnv) (uid mt : String) (acc : CycleOut) (cid x : Nat)
    (hx : x ≠ cid) : dbGet (stepChat env uid mt acc cid).db x = dbGet acc.db x := by
  rcases h : dbGet acc.db cid with _ | cfg
  · simp [stepChat, h]
  · by_cases hl : cfg.last_notified_event = some uid
    · simp [stepChat, h, hl]
    · rcases hd : env.deliver cid with _ | m
      · simp [stepChat, h, hl, hd, dbGet_dbSet_ne _ _ _ _ hx]
      · by_cases hf : strContains m "Forbidden" = true
        · simp [stepChat, h, hl, hd, hf, dbGet_dbSet_ne _ _ _ _ hx]
        · simp [stepChat, h, hl, hd, hf]

theorem stepChat_sent_ne (env : CycleEnv) (uid mt : String) (acc : CycleOut) (cid x : Nat)
    (hx : x ≠ cid) (msg : String) :
    ((x, msg) ∈ (stepChat env uid mt acc cid).sent ↔ (x, msg) ∈ acc.sent) := by
  rcases h : dbGet acc.db cid with _ | cfg
  · simp [stepChat, h]
  · by_cases hl : cfg.last_notified_event = some uid
    · simp [stepChat, h, hl]
    · rcases hd : env.deliver cid with _ | m
      · simp [stepChat, h, hl, hd]
        intro he
        exact absurd he hx
      · by_cases hf : strContains m "Forbidden" = true
        · simp [stepChat, h, hl, hd, hf]
        · simp [stepChat, h, hl, hd, hf]

theorem stepChat_attempted_ne (env : CycleEnv) (uid mt : String) (acc : CycleOut) (cid x : Nat)
    (hx : x ≠ cid) :
    (x ∈ (stepChat env uid mt acc cid).attempted ↔ x ∈ acc.attempted) := by
  rcases h : dbGet acc.db cid with _ | cfg
  · simp [stepChat, h]
  · by_cases hl : cfg.last_notified_event = some uid
    · simp [stepChat, h, hl]
    · rcases hd : env.deliver cid with _ | m
      · simp [stepChat, h, hl, hd, hx]
      · by_cases hf : strContains m "Forbidden" = true
        · simp [stepChat, h, hl, hd, hf, hx]
        · simp [stepChat, h, hl, hd, hf, hx]

theorem stepChat_skip (env : CycleEnv) (uid mt : String) (acc : CycleOut) (cid : Nat)
    (cfg : ChatConfig) (h : dbGet acc.db cid = some cfg)
    (hl : cfg.last_notified_event = some uid) : stepChat env uid mt acc cid = acc := by
  simp [stepChat, h, hl]

/-! ## Notification engine: chat-list fold lemmas -/

theorem foldChats_ne (env : CycleEnv) (uid mt : String) (cids : List Nat) (acc : CycleOut)
    (x : Nat) (hx : ∀ y ∈ cids, y ≠ x) :
    dbGet ((cids.foldl (stepChat env uid mt) acc).db) x = dbGet acc.db x
    ∧ (∀ msg, ((x, msg) ∈ (cids.foldl (stepChat env uid mt) acc).sent ↔ (x, msg) ∈ acc.sent))
    ∧ (x ∈ (cids.foldl (stepChat env uid mt) acc).attempted ↔ x ∈ acc.attempted) := by
  induction cids generalizing acc with
  | nil => exact ⟨rfl, fun _ => Iff.rfl, Iff.rfl⟩
  | cons y rest ih =>
      have hyx : x ≠ y := fun he => (hx y (by simp)) he.symm
      have h1 := stepChat_db_ne env uid mt acc y x hyx
      have h2 := fun msg => stepChat_sent_ne env uid mt acc y x hyx msg
      have h3 := stepChat_attempted_ne env uid mt acc y x hyx
      have ihr := ih (stepChat env uid mt acc y) (fun z hz => hx z (List.mem_cons_of_mem _ hz))
      rw [List.foldl_cons]
      exact ⟨ihr.1.trans h1,
        fun msg => (ihr.2.1 msg).trans (h2 msg),
        ihr.2.2.trans h3⟩

theorem foldChats_uid (env : CycleEnv) (uid mt : String) (cids : List Nat) (acc : CycleOut)
    (x : Nat) (cfg : ChatConfig) (h : dbGet acc.db x = some cfg)
    (hl : cfg.last_notified_event = some uid) :
    dbGet ((cids.foldl (stepChat env uid mt) acc).db) x = some cfg
    ∧ (∀ msg, ((x, msg) ∈ (cids.foldl (stepChat env uid mt) acc).sent ↔ (x, msg) ∈ acc.sent))
    ∧ (x ∈ (cids.foldl (stepChat env uid mt) acc).attempted ↔ x ∈ acc.attempted) := by
  induction cids generalizing acc with
  | nil => exact ⟨h, fun _ => Iff.rfl, Iff.rfl⟩
  | cons y rest ih =>
      rw [List.foldl_cons]
      by_cases hyx : y = x
      · subst hyx
        rw [stepChat_skip env uid mt acc y cfg h hl]
        exact ih acc h
      · have hxy : x ≠ y := fun he => hyx he.symm
        have h1 := stepChat_db_ne env uid mt acc y x hxy
        have ihr := ih (stepChat env uid mt acc y) (h1.trans h)
        refine ⟨ihr.1, ?_, ?_⟩
        · exact fun msg => (ihr.2.1 msg).trans (stepChat_sent_ne env uid mt acc y x hxy msg)
        · exact ihr.2.2.trans (stepChat_attempted_ne env uid mt acc y x hxy)

/-! ## Notification engine: per-group step lemmas -/

theorem stepGroup_ne (env : CycleEnv) (acc : CycleOut) (g : (String × String) × List Nat)
    (x : Nat) (hx : x ∉ g.2) :
    dbGet (stepGroup env acc g).db x = dbGet acc.db x
    ∧ (∀ msg, ((x, msg) ∈ (stepGroup env acc g).sent ↔ (x, msg) ∈ acc.sent))
    ∧ (x ∈ (stepGroup env acc g).attempted ↔ x ∈ acc.attempted) := by
  rcases he : (env.snapshot g.1.1 g.1.2).next_event_time with _ | t
  · simp [stepGroup, he]
  · simp only [stepGroup, he]
    by_cases hw : 14 ≤ (60 * (t : ℚ) - env.now) / 60 ∧ (60 * (t : ℚ) - env.now) / 60 ≤ 16
    · rw [if_pos hw]
      exact foldChats_ne env _ _ g.2 acc x (fun y hy hyx => hx (hyx ▸ hy))
    · rw [if_neg hw]
      simp

theorem stepGroup_uid (env : CycleEnv) (acc : CycleOut) (g : (String × String) × List Nat)
    (x : Nat) (cfg : ChatConfig) (h : dbGet acc.db x = some cfg)
    (hl : cfg.last_notified_event = groupUid env g.1.1 g.1.2) :
    dbGet (stepGroup env acc g).db x = some cfg
    ∧ (∀ msg, ((x, msg) ∈ (stepGroup env acc g).sent ↔ (x, msg) ∈ acc.sent))
    ∧ (x ∈ (stepGroup env acc g).attempted ↔ x ∈ acc.attempted) := by
  rcases he : (env.snapshot g.1.1 g.1.2).next_event_time with _ | t
  · simp only [stepGroup, he]
    simpa using h
  · have huid : cfg.last_notified_event
        = some (eventUid t (env.snapshot g.1.1 g.1.2).next_event_type) := by
      rw [hl, groupUid, he]
    simp only [stepGroup, he]
    by_cases hw : 14 ≤ (60 * (t : ℚ) - env.now) / 60 ∧ (60 * (t : ℚ) - env.now) / 60 ≤ 16
    · rw [if_pos hw]
      exact foldChats_uid env _ _ g.2 acc x cfg h huid
    · rw [if_neg hw]
      simpa using h

/-! ## Notification engine: grouping lemmas -/

theorem addChat_sound (Q : Nat → String × String → Prop)
    (gs : List ((String × String) × List Nat)) (key : String × String) (cid : Nat)
    (hgs : ∀ g ∈ gs, ∀ x ∈ g.2, Q x g.1) (hc : Q cid key) :
    ∀ g ∈ addChat gs key cid, ∀ x ∈ g.2, Q x g.1 := by
  induction gs with
  | nil =>
      intro g hg x hx
      rw [addChat] at hg
      rcases List.mem_singleton.mp hg with rfl
      rcases List.mem_singleton.mp hx with rfl
      exact hc
  | cons p rest ih =>
      obtain ⟨k, l⟩ := p
      intro g hg x hx
      rw [addChat] at hg
      by_cases hk : k = key
      · rw [if_pos hk] at hg
        rcases List.mem_cons.mp hg with rfl | hg2
        · rcases List.mem_append.mp hx with hx1 | hx2
          · exact hgs (k, l) (by simp) x hx1
          · rcases List.mem_singleton.mp hx2 with rfl
            exact hk ▸ hc
        · exact hgs g (List.mem_cons_of_mem _ hg2) x hx
      · rw [if_neg hk] at hg
        rcases List.mem_cons.mp hg with h1 | hg2
        · subst h1
          exact hgs (k, l) (by simp) x hx
        · exact ih (fun g' hg' => hgs g' (List.mem_cons_of_mem _ hg')) g hg2 x hx

theorem groupChats_fold_sound (Q : Nat → String × String → Prop) :
    ∀ (db : List (Nat × ChatConfig)) (gs : List ((String × String) × List Nat)),
      (∀ g ∈ gs, ∀ x ∈ g.2, Q x g.1) →
      (∀ p ∈ db, p.2.notifications_enabled = true → Q p.1 (p.2.queue, p.2.subqueue)) →
      ∀ g ∈ db.foldl
          (fun gs p =>
            if p.2.notifications_enabled then addChat gs (p.2.queue, p.2.subqueue) p.1 else gs)
          gs,
        ∀ x ∈ g.2, Q x g.1 := by
  intro db
  induction db with
  | nil => intro gs hgs _ g hg x hx; exact hgs g hg x hx
  | cons p rest ih =>
      intro gs hgs hdb g hg x hx
      rw [List.foldl_cons] at hg
      by_cases hen : p.2.notifications_enabled = true
      · rw [if_pos hen] at hg
        exact ih (addChat gs (p.2.queue, p.2.subqueue) p.1)
          (addChat_sound Q gs _ _ hgs (hdb p (by simp) hen))
          (fun q hq => hdb q (List.mem_cons_of_mem _ hq)) g hg x hx
      · rw [if_neg hen] at hg
        exact ih gs hgs (fun q hq => hdb q (List.mem_cons_of_mem _ hq)) g hg x hx

theorem groupChats_sound (db : List (Nat × ChatConfig))
    (hnodup : (db.map Prod.fst).Nodup) :
    ∀ g ∈ groupChats db, ∀ x ∈ g.2,
      ∃ cfg, dbGet db x = some cfg ∧ cfg.notifications_enabled = true
        ∧ g.1 = (cfg.queue, cfg.subqueue) := by
  refine groupChats_fold_sound
    (fun x k => ∃ cfg, dbGet db x = some cfg ∧ cfg.notifications_enabled = true
      ∧ k = (cfg.queue, cfg.subqueue)) db [] (by simp) ?_
  intro p hp hen
  exact ⟨p.2, dbGet_of_mem_nodup db p hnodup hp, hen, rfl⟩

theorem addChat_mem_preserve (gs : List ((String × String) × List Nat))
    (key : String × String) (cid : Nat) (k : String × String) (x : Nat)
    (h : ∃ g ∈ gs, g.1 = k ∧ x ∈ g.2) :
    ∃ g ∈ addChat gs key cid, g.1 = k ∧ x ∈ g.2 := by
  induction gs with
  | nil => simp at h
  | cons p rest ih =>
      obtain ⟨k0, l⟩ := p
      obtain ⟨g, hg, hk, hx⟩ := h
      rw [addChat]
      by_cases hkey : k0 = key
      · rw [if_pos hkey]
        rcases List.mem_cons.mp hg with rfl | hg2
        · exact ⟨(k0, l ++ [cid]), by simp, hk, List.mem_append_left _ hx⟩
        · exact ⟨g, List.mem_cons_of_mem _ hg2, hk, hx⟩
      · rw [if_neg hkey]
        rcases List.mem_cons.mp hg with h1 | hg2
        · subst h1
          exact ⟨(k0, l), by simp, hk, hx⟩
        · obtain ⟨g', hg', hk', hx'⟩ := ih ⟨g, hg2, hk, hx⟩
          exact ⟨g', List.mem_cons_of_mem _ hg', hk', hx'⟩

theorem addChat_mem_new (gs : List ((String × String) × List Nat))
    (key : String × String) (cid : Nat) :
    ∃ g ∈ addChat gs key cid, g.1 = key ∧ cid ∈ g.2 := by
  induction gs with
  | nil => exact ⟨(key, [cid]), by simp [addChat], rfl, by simp⟩
  | cons p rest ih =>
      obtain ⟨k0, l⟩ := p
      rw [addChat]
      by_cases hkey : k0 = key
      · rw [if_pos hkey]
        exact ⟨(k0, l ++ [cid]), by simp, hkey, List.mem_append_right _ (by simp)⟩
      · rw [if_neg hkey]
        obtain ⟨g, hg, hk, hx⟩ := ih
        exact ⟨g, List.mem_cons_of_mem _ hg, hk, hx⟩

theorem groupChats_fold_mem_preserve (k : String × String) (x : Nat) :
    ∀ (db : List (Nat × ChatConfig)) (gs : List ((String × String) × List Nat)),
      (∃ g ∈ gs, g.1 = k ∧ x ∈ g.2) →
      ∃ g ∈ db.foldl
          (fun gs p =>
            if p.2.notifications_enabled then addChat gs (p.2.queue, p.2.subqueue) p.1 else gs)
          gs,
        g.1 = k ∧ x ∈ g.2 := by
  intro db
  induction db with
  | nil => intro gs h; exact h
  | cons p rest ih =>
      intro gs h
      rw [List.foldl_cons]
      by_cases hen : p.2.notifications_enabled = true
      · rw [if_pos hen]
        exact ih _ (addChat_mem_preserve gs _ _ k x h)
      · rw [if_neg hen]
        exact ih _ h

theorem groupChats_complete (db : List (Nat × ChatConfig)) (x : Nat) (cfg : ChatConfig)
    (hget : dbGet db x = some cfg) (hen : cfg.notifications_enabled = true) :
    ∃ g ∈ groupChats db, g.1 = (cfg.queue, cfg.subqueue) ∧ x ∈ g.2 := by
  rw [groupChats]
  suffices h : ∀ (db' : List (Nat × ChatConfig)) (gs : List ((String × String) × List Nat)),
      dbGet db' x = some cfg →
      ∃ g ∈ db'.foldl
          (fun gs p =>
            if p.2.notifications_enabled then addChat gs (p.2.queue, p.2.subqueue) p.1 else gs)
          gs,
        g.1 = (cfg.queue, cfg.subqueue) ∧ x ∈ g.2 by
    exact h db [] hget
  intro db'
  induction db' with
  | nil => intro gs h; simp [dbGet] at h
  | cons p rest ih =>
      intro gs h
      rw [dbGet] at h
      rw [List.foldl_cons]
      by_cases hk : p.1 = x
      · rw [if_pos hk] at h
        obtain rfl : p.2 = cfg := Option.some.inj h
        rw [if_pos hen]
        exact groupChats_fold_mem_preserve _ x rest _
          (hk ▸ addChat_mem_new gs (p.2.queue, p.2.subqueue) p.1)
      · rw [if_neg hk] at h
        by_cases hen' : p.2.notifications_enabled = true
        · rw [if_pos hen']
          exact ih _ h
        · rw [if_neg hen']
          exact ih _ h

/-! ## Notification engine: each chat is grouped at most once -/

theorem mem_chatsOf (gs : List ((String × String) × List Nat))
    (g : (String × String) × List Nat) (y : Nat) (hg : g ∈ gs) (hy : y ∈ g.2) :
    y ∈ chatsOf gs := by
  rw [chatsOf, List.mem_flatten]
  exact ⟨g.2, List.mem_map_of_mem _ hg, hy⟩

theorem chatsOf_addChat_perm (gs : List ((String × String) × List Nat))
    (key : String × String) (cid : Nat) :
    (chatsOf (addChat gs key cid)).Perm (chatsOf gs ++ [cid]) := by
  induction gs with
  | nil => simp [addChat, chatsOf]
  | cons p rest ih =>
      obtain ⟨k, l⟩ := p
      rw [addChat]
      by_cases hk : k = key
      · rw [if_pos hk]
        simp only [chatsOf, List.map_cons, List.flatten_cons]
        rw [List.append_assoc, List.append_assoc]
        exact List.Perm.append_left l List.perm_append_comm
      · rw [if_neg hk]
        simp only [chatsOf, List.map_cons, List.flatten_cons]
        rw [List.append_assoc]
        exact List.Perm.append_left l ih

theorem chatsOf_groupChats_perm :
    ∀ (db : List (Nat × ChatConfig)) (gs : List ((String × String) × List Nat)),
      (chatsOf (db.foldl
          (fun gs p =>
            if p.2.notifications_enabled then addChat gs (p.2.queue, p.2.subqueue) p.1 else gs)
          gs)).Perm
        (chatsOf gs ++ (db.filter (fun p => p.2.notifications_enabled)).map Prod.fst) := by
  intro db
  induction db with
  | nil => intro gs; simp
  | cons p rest ih =>
      intro gs
      rw [List.foldl_cons]
      by_cases hen : p.2.notifications_enabled = true
      · rw [if_pos hen]
        rw [List.filter_cons]
        rw [if_pos hen]
        refine (ih (addChat gs (p.2.queue, p.2.subqueue) p.1)).trans ?_
        rw [List.map_cons]
        have h1 := List.Perm.append_right
          ((rest.filter (fun p => p.2.notifications_enabled)).map Prod.fst)
          (chatsOf_addChat_perm gs (p.2.queue, p.2.subqueue) p.1)
        refine h1.trans ?_
        rw [List.append_assoc]
        rfl
      · rw [if_neg hen]
        rw [List.filter_cons]
        rw [if_neg hen]
        exact ih gs

theorem chatsOf_groupChats_nodup (db : List (Nat × ChatConfig))
    (hnodup : (db.map Prod.fst).Nodup) : (chatsOf (groupChats db)).Nodup := by
  have hperm := chatsOf_groupChats_perm db []
  rw [groupChats]
  refine hperm.nodup_iff.mpr ?_
  have hempty : chatsOf [] = [] := rfl
  rw [hempty, List.nil_append]
  exact ((db.filter_sublist.map Prod.fst)).nodup hnodup

theorem chat_occurrence (db : List (Nat × ChatConfig)) (x : Nat) (cfg : ChatConfig)
    (hnodup : (db.map Prod.fst).Nodup)
    (hget : dbGet db x = some cfg) (hen : cfg.notifications_enabled = true) :
    ∃ gs1 g gs2 pre suf,
      groupChats db = gs1 ++ g :: gs2
      ∧ g.1 = (cfg.queue, cfg.subqueue)
      ∧ g.2 = pre ++ x :: suf
      ∧ x ∉ pre ∧ x ∉ suf
      ∧ (∀ g' ∈ gs1, x ∉ g'.2) ∧ (∀ g' ∈ gs2, x ∉ g'.2) := by
  obtain ⟨g, hg, hk, hx⟩ := groupChats_complete db x cfg hget hen
  obtain ⟨gs1, gs2, hsplit⟩ := List.append_of_mem hg
  obtain ⟨pre, suf, hsplit2⟩ := List.append_of_mem hx
  have hnd := chatsOf_groupChats_nodup db hnodup
  rw [hsplit] at hnd
  have hco : chatsOf (gs1 ++ g :: gs2) = chatsOf gs1 ++ (g.2 ++ chatsOf gs2) := by
    simp [chatsOf]
  rw [hco, hsplit2] at hnd
  rw [List.nodup_append] at hnd
  obtain ⟨-, hnd2, hdisj1⟩ := hnd
  rw [List.nodup_append] at hnd2
  obtain ⟨hndp, -, hdisj2⟩ := hnd2
  rw [List.nodup_append] at hndp
  obtain ⟨-, hndc, hdisj3⟩ := hndp
  have hxpre : x ∉ pre := fun hm => hdisj3 hm (by simp)
  have hxsuf : x ∉ suf := (List.nodup_cons.mp hndc).1
  have hxgs1 : x ∉ chatsOf gs1 := fun hm => hdisj1 hm (by simp)
  have hxgs2 : x ∉ chatsOf gs2 := fun hm => hdisj2 (by simp) hm
  exact ⟨gs1, g, gs2, pre, suf, hsplit, hk, hsplit2, hxpre, hxsuf,
    fun g' hg' hx' => hxgs1 (mem_chatsOf gs1 g' x hg' hx'),
    fun g' hg' hx' => hxgs2 (mem_chatsOf gs2 g' x hg' hx')⟩

/-! ## Notification engine: cycle-level preservation lemmas -/

theorem stepGroup_of_skip (env : CycleEnv) (acc : CycleOut) (g : (String × String) × List Nat)
    (h : (env.snapshot g.1.1 g.1.2).next_event_time = none
      ∨ ∀ t, (env.snapshot g.1.1 g.1.2).next_event_time = some t →
          ¬(14 ≤ (60 * (t : ℚ) - env.now) / 60 ∧ (60 * (t : ℚ) - env.now) / 60 ≤ 16)) :
    stepGroup env acc g = acc := by
  rcases he : (env.snapshot g.1.1 g.1.2).next_event_time with _ | t
  · simp [stepGroup, he]
  · rcases h with h | h
    · rw [he] at h; exact absurd h (by simp)
    · simp only [stepGroup, he]
      rw [if_neg (h t he)]

theorem foldGroups_mixed (env : CycleEnv) (gs : List ((String × String) × List Nat))
    (acc : CycleOut) (x : Nat) (cfg : ChatConfig)
    (h : dbGet acc.db x = some cfg)
    (hcond : ∀ g ∈ gs, x ∉ g.2 ∨ (∀ acc', stepGroup env acc' g = acc')
      ∨ cfg.last_notified_event = groupUid env g.1.1 g.1.2) :
    dbGet ((gs.foldl (stepGroup env) acc).db) x = some cfg
    ∧ (∀ m, ((x, m) ∈ (gs.foldl (stepGroup env) acc).sent ↔ (x, m) ∈ acc.sent))
    ∧ (x ∈ (gs.foldl (stepGroup env) acc).attempted ↔ x ∈ acc.attempted) := by
  induction gs generalizing acc with
  | nil => exact ⟨h, fun _ => Iff.rfl, Iff.rfl⟩
  | cons g rest ih =>
      rw [List.foldl_cons]
      have hrest : ∀ g' ∈ rest, x ∉ g'.2 ∨ (∀ acc', stepGroup env acc' g' = acc')
          ∨ cfg.last_notified_event = groupUid env g'.1.1 g'.1.2 :=
        fun g' hg' => hcond g' (List.mem_cons_of_mem _ hg')
      rcases hcond g (by simp) with hx | hskip | huid
      · have hs := stepGroup_ne env acc g x hx
        have ihr := ih (stepGroup env acc g) (hs.1.trans h) hrest
        exact ⟨ihr.1, fun m => (ihr.2.1 m).trans (hs.2.1 m), ihr.2.2.trans hs.2.2⟩
      · rw [hskip acc]
        exact ih acc h hrest
      · have hs := stepGroup_uid env acc g x cfg h huid
        have ihr := ih (stepGroup env acc g) hs.1 hrest
        exact ⟨ihr.1, fun m => (ihr.2.1 m).trans (hs.2.1 m), ihr.2.2.trans hs.2.2⟩

theorem stepChat_keys (env : CycleEnv) (uid mt : String) (acc : CycleOut) (cid : Nat) :
    (stepChat env uid mt acc cid).db.map Prod.fst = acc.db.map Prod.fst := by
  rcases h : dbGet acc.db cid with _ | cfg
  · simp [stepChat, h]
  · by_cases hl : cfg.last_notified_event = some uid
    · simp [stepChat, h, hl]
    · rcases hd : env.deliver cid with _ | m
      · simp [stepChat, h, hl, hd, dbSet_keys]
      · by_cases hf : strContains m "Forbidden" = true
        · simp [stepChat, h, hl, hd, hf, dbSet_keys]
        · simp [stepChat, h, hl, hd, hf]

theorem foldChats_keys (env : CycleEnv) (uid mt : String) (cids : List Nat) (acc : CycleOut) :
    ((cids.foldl (stepChat env uid mt) acc).db).map Prod.fst = acc.db.map Prod.fst := by
  induction cids generalizing acc with
  | nil => rfl
  | cons y rest ih =>
      rw [List.foldl_cons]
      exact (ih (stepChat env uid mt acc y)).trans (stepChat_keys env uid mt acc y)

theorem stepGroup_keys (env : CycleEnv) (acc : CycleOut) (g : (String × String) × List Nat) :
    (stepGroup env acc g).db.map Prod.fst = acc.db.map Prod.fst := by
  rcases he : (env.snapshot g.1.1 g.1.2).next_event_time with _ | t
  · simp [stepGroup, he]
  · simp only [stepGroup, he]
    by_cases hw : 14 ≤ (60 * (t : ℚ) - env.now) / 60 ∧ (60 * (t : ℚ) - env.now) / 60 ≤ 16
    · rw [if_pos hw]
      exact foldChats_keys env _ _ g.2 acc
    · rw [if_neg hw]

theorem check_all_chats_keys (env : CycleEnv) (db : List (Nat × ChatConfig)) :
    ((check_all_chats env db).db).map Prod.fst = db.map Prod.fst := by
  rw [check_all_chats]
  generalize hgs : groupChats db = gs
  suffices h : ∀ (gs' : List ((String × String) × List Nat)) (acc : CycleOut),
      ((gs'.foldl (stepGroup env) acc).db).map Prod.fst = acc.db.map Prod.fst by
    exact h gs { db := db, sent := [], attempted := [] }
  intro gs'
  induction gs' with
  | nil => intro acc; rfl
  | cons g rest ih =>
      intro acc
      rw [List.foldl_cons]
      exact (ih (stepGroup env acc g)).trans (stepGroup_keys env acc g)

/-- A chat with notifications disabled is untouched by the cycle: its config
is unchanged and it is neither attempted nor sent anything. -/
theorem cycle_skip_disabled (env : CycleEnv) (db : List (Nat × ChatConfig)) (x : Nat)
    (cfg : ChatConfig) (hnodup : (db.map Prod.fst).Nodup)
    (hget : dbGet db x = some cfg) (hen : cfg.notifications_enabled = false) :
    dbGet (check_all_chats env db).db x = some cfg
    ∧ (∀ m, (x, m) ∉ (check_all_chats env db).sent)
    ∧ x ∉ (check_all_chats env db).attempted := by
  have hsound := groupChats_sound db hnodup
  have hcond : ∀ g ∈ groupChats db, x ∉ g.2 ∨ (∀ acc', stepGroup env acc' g = acc')
      ∨ cfg.last_notified_event = groupUid env g.1.1 g.1.2 := by
    intro g hg
    left
    intro hx
    obtain ⟨cfg', hget', hen', -⟩ := hsound g hg x hx
    rw [hget] at hget'
    obtain rfl : cfg = cfg' := Option.some.inj hget'
    rw [hen] at hen'
    exact Bool.false_ne_true hen'
  have h := foldGroups_mixed env (groupChats db) { db := db, sent := [], attempted := [] }
    x cfg hget hcond
  exact ⟨h.1, fun m hm => by simpa using (h.2.1 m).mp hm, fun hm => by simpa using h.2.2.mp hm⟩

/-- A chat whose `last_notified_event` already equals its group's current
event id is untouched by the cycle (the dedup test skips it). -/
theorem cycle_skip_match (env : CycleEnv) (db : List (Nat × ChatConfig)) (x : Nat)
    (cfg : ChatConfig) (hnodup : (db.map Prod.fst).Nodup)
    (hget : dbGet db x = some cfg)
    (hl : cfg.last_notified_event = groupUid env cfg.queue cfg.subqueue) :
    dbGet (check_all_chats env db).db x = some cfg
    ∧ (∀ m, (x, m) ∉ (check_all_chats env db).sent)
    ∧ x ∉ (check_all_chats env db).attempted := by
  have hsound := groupChats_sound db hnodup
  have hcond : ∀ g ∈ groupChats db, x ∉ g.2 ∨ (∀ acc', stepGroup env acc' g = acc')
      ∨ cfg.last_notified_event = groupUid env g.1.1 g.1.2 := by
    intro g hg
    by_cases hx : x ∈ g.2
    · right; right
      obtain ⟨cfg', hget', -, hk⟩ := hsound g hg x hx
      rw [hget] at hget'
      obtain rfl : cfg = cfg' := Option.some.inj hget'
      have h1 : g.1.1 = cfg.queue := by rw [hk]
      have h2 : g.1.2 = cfg.subqueue := by rw [hk]
      rw [h1, h2]
      exact hl
    · exact Or.inl hx
  have h := foldGroups_mixed env (groupChats db) { db := db, sent := [], attempted := [] }
    x cfg hget hcond
  exact ⟨h.1, fun m hm => by simpa using (h.2.1 m).mp hm, fun hm => by simpa using h.2.2.mp hm⟩

/-- A chat whose group has no pending event, or whose pending event is outside
the 14–16 minute window, is untouched by the cycle. -/
theorem cycle_skip_window (env : CycleEnv) (db : List (Nat × ChatConfig)) (x : Nat)
    (cfg : ChatConfig) (hnodup : (db.map Prod.fst).Nodup)
    (hget : dbGet db x = some cfg)
    (hskip : (env.snapshot cfg.queue cfg.subqueue).next_event_time = none
      ∨ ∀ t, (env.snapshot cfg.queue cfg.subqueue).next_event_time = some t →
          ¬(14 ≤ (60 * (t : ℚ) - env.now) / 60 ∧ (60 * (t : ℚ) - env.now) / 60 ≤ 16)) :
    dbGet (check_all_chats env db).db x = some cfg
    ∧ (∀ m, (x, m) ∉ (check_all_chats env db).sent)
    ∧ x ∉ (check_all_chats env db).attempted := by
  have hsound := groupChats_sound db hnodup
  have hcond : ∀ g ∈ groupChats db, x ∉ g.2 ∨ (∀ acc', stepGroup env acc' g = acc')
      ∨ cfg.last_notified_event = groupUid env g.1.1 g.1.2 := by
    intro g hg
    by_cases hx : x ∈ g.2
    · right; left
      obtain ⟨cfg', hget', -, hk⟩ := hsound g hg x hx
      rw [hget] at hget'
      obtain rfl : cfg = cfg' := Option.some.inj hget'
      have h1 : g.1.1 = cfg.queue := by rw [hk]
      have h2 : g.1.2 = cfg.subqueue := by rw [hk]
      intro acc'
      refine stepGroup_of_skip env acc' g ?_
      rw [h1, h2]
      exact hskip
    · exact Or.inl hx
  have h := foldGroups_mixed env (groupChats db) { db := db, sent := [], attempted := [] }
    x cfg hget hcond
  exact ⟨h.1, fun m hm => by simpa using (h.2.1 m).mp hm, fun hm => by simpa using h.2.2.mp hm⟩

/-! ## Notification engine: the action case -/

theorem foldChats_action (env : CycleEnv) (uid mt : String) (pre suf : List Nat)
    (acc : CycleOut) (x : Nat) (cfg : ChatConfig)
    (hpre : x ∉ pre) (hsuf : x ∉ suf)
    (h : dbGet acc.db x = some cfg) (hl : cfg.last_notified_event ≠ some uid)
    (hsent : ∀ m, (x, m) ∉ acc.sent) (hatt : x ∉ acc.attempted) :
    x ∈ ((pre ++ x :: suf).foldl (stepChat env uid mt) acc).attempted
    ∧ (env.deliver x = SendResult.Ok →
        dbGet ((pre ++ x :: suf).foldl (stepChat env uid mt) acc).db x
          = some { cfg with last_notified_event := some uid }
        ∧ ∀ m, ((x, m) ∈ ((pre ++ x :: suf).foldl (stepChat env uid mt) acc).sent ↔ m = mt))
    ∧ (∀ em, env.deliver x = SendResult.Error em →
        (∀ m, (x, m) ∉ ((pre ++ x :: suf).foldl (stepChat env uid mt) acc).sent)
        ∧ (strContains em "Forbidden" = true →
            dbGet ((pre ++ x :: suf).foldl (stepChat env uid mt) acc).db x
              = some { cfg with notifications_enabled := false })
        ∧ (strContains em "Forbidden" = false →
            dbGet ((pre ++ x :: suf).foldl (stepChat env uid mt) acc).db x = some cfg)) := by
  rw [List.foldl_append, List.foldl_cons]
  have P := foldChats_ne env uid mt pre acc x (fun y hy hyx => hpre (hyx ▸ hy))
  set accP := List.foldl (stepChat env uid mt) acc pre with haccP
  have hPget : dbGet accP.db x = some cfg := P.1.trans h
  have hPsent : ∀ m, (x, m) ∉ accP.sent := fun m hm => hsent m ((P.2.1 m).mp hm)
  have hPatt : x ∉ accP.attempted := fun hm => hatt (P.2.2.mp hm)
  set accX := stepChat env uid mt accP x with haccX
  have S := foldChats_ne env uid mt suf accX x (fun y hy hyx => hsuf (hyx ▸ hy))
  rcases hd : env.deliver x with _ | em
  · have hX : accX =
        { db := dbSet accP.db x { cfg with last_notified_event := some uid },
          sent := accP.sent ++ [(x, mt)],
          attempted := accP.attempted ++ [x] } := by
      rw [haccX]
      simp [stepChat, hPget, hl, hd]
    refine ⟨S.2.2.mpr (by rw [hX]; simp), fun _ => ⟨?_, ?_⟩, fun em hem => ?_⟩
    · refine S.1.trans ?_
      rw [hX]
      exact dbGet_dbSet_self _ x _ cfg hPget
    · intro m
      refine (S.2.1 m).trans ?_
      rw [hX]
      simp only [List.mem_append, List.mem_singleton, Prod.mk.injEq, true_and]
      constructor
      · rintro (hm | hm)
        · exact absurd hm (hPsent m)
        · exact hm
      · intro hm
        exact Or.inr hm
    · exact absurd hem (by simp)
  · by_cases hf : strContains em "Forbidden" = true
    · have hX : accX =
          { db := dbSet accP.db x { cfg with notifications_enabled := false },
            sent := accP.sent,
            attempted := accP.attempted ++ [x] } := by
        rw [haccX]
        simp [stepChat, hPget, hl, hd, hf]
      refine ⟨S.2.2.mpr (by rw [hX]; simp), fun hOk => absurd hOk (by simp),
        fun em2 hem2 => ?_⟩
      obtain rfl : em = em2 := (SendResult.Error.injEq _ _).mp hem2
      refine ⟨fun m hm => hPsent m ?_, fun _ => ?_, fun hf2 => ?_⟩
      · have := (S.2.1 m).mp hm
        rw [hX] at this
        exact this
      · refine S.1.trans ?_
        rw [hX]
        exact dbGet_dbSet_self _ x _ cfg hPget
      · rw [hf] at hf2
        exact absurd hf2 (by simp)
    · have hf2 : strContains em "Forbidden" = false := by
        cases hcs : strContains em "Forbidden"
        · rfl
        · exact absurd hcs hf
      have hX : accX =
          { db := accP.db,
            sent := accP.sent,
            attempted := accP.attempted ++ [x] } := by
        rw [haccX]
        simp [stepChat, hPget, hl, hd, hf]
      refine ⟨S.2.2.mpr (by rw [hX]; simp), fun hOk => absurd hOk (by simp),
        fun em2 hem2 => ?_⟩
      obtain rfl : em = em2 := (SendResult.Error.injEq _ _).mp hem2
      refine ⟨fun m hm => hPsent m ?_, fun hff => ?_, fun _ => ?_⟩
      · have := (S.2.1 m).mp hm
        rw [hX] at this
        exact this
      · rw [hff] at hf2
        exact absurd hf2 (by simp)
      · refine S.1.trans ?_
        rw [hX]
        exact hPget

/-- Full characterization of what one `check_all_chats` cycle does to a
subscribed chat whose group has a pending event inside the 14–16 minute
window and whose `last_notified_event` differs from the event id: a delivery
is attempted; on success the chat's marker is set to the event id and exactly
the alert text is delivered; on failure nothing is delivered and either the
chat is disabled (`Forbidden` failures) or its config is left unchanged. -/
theorem cycle_action (env : CycleEnv) (db : List (Nat × ChatConfig)) (x : Nat)
    (cfg : ChatConfig) (t : Nat)
    (hnodup : (db.map Prod.fst).Nodup)
    (hget : dbGet db x = some cfg) (hen : cfg.notifications_enabled = true)
    (he : (env.snapshot cfg.queue cfg.subqueue).next_event_time = some t)
    (hw : 14 ≤ (60 * (t : ℚ) - env.now) / 60 ∧ (60 * (t : ℚ) - env.now) / 60 ≤ 16)
    (hl : cfg.last_notified_event
        ≠ some (eventUid t (env.snapshot cfg.queue cfg.subqueue).next_event_type)) :
    x ∈ (check_all_chats env db).attempted
    ∧ (env.deliver x = SendResult.Ok →
        dbGet (check_all_chats env db).db x
          = some { cfg with last_notified_event := some (eventUid t (env.snapshot cfg.queue cfg.subqueue).next_event_type) }
        ∧ ∀ m, ((x, m) ∈ (check_all_chats env db).sent
            ↔ m = notifyText (env.snapshot cfg.queue cfg.subqueue).next_event_type t))
    ∧ (∀ em, env.deliver x = SendResult.Error em →
        (∀ m, (x, m) ∉ (check_all_chats env db).sent)
        ∧ (strContains em "Forbidden" = true →
            dbGet (check_all_chats env db).db x
              = some { cfg with notifications_enabled := false })
        ∧ (strContains em "Forbidden" = false →
            dbGet (check_all_chats env db).db x = some cfg)) := by
  obtain ⟨gs1, g, gs2, pre, suf, hsplit, hk, hchats, hxpre, hxsuf, hgs1, hgs2⟩ :=
    chat_occurrence db x cfg hnodup hget hen
  have hg11 : g.1.1 = cfg.queue := by rw [hk]
  have hg12 : g.1.2 = cfg.subqueue := by rw [hk]
  rw [check_all_chats, hsplit, List.foldl_append, List.foldl_cons]
  have F1 := foldGroups_mixed env gs1 { db := db, sent := [], attempted := [] } x cfg hget
    (fun g' hg' => Or.inl (hgs1 g' hg'))
  have hA1get : dbGet ((gs1.foldl (stepGroup env) { db := db, sent := [], attempted := [] }).db) x
      = some cfg := F1.1
  have hA1sent : ∀ m,
      (x, m) ∉ (gs1.foldl (stepGroup env) { db := db, sent := [], attempted := [] }).sent :=
    fun m hm => by simpa using (F1.2.1 m).mp hm
  have hA1att : x ∉ (gs1.foldl (stepGroup env) { db := db, sent := [], attempted := [] }).attempted :=
    fun hm => by simpa using F1.2.2.mp hm
  have HG : stepGroup env (gs1.foldl (stepGroup env) { db := db, sent := [], attempted := [] }) g
      = g.2.foldl
          (stepChat env (eventUid t (env.snapshot cfg.queue cfg.subqueue).next_event_type)
            (notifyText (env.snapshot cfg.queue cfg.subqueue).next_event_type t))
          (gs1.foldl (stepGroup env) { db := db, sent := [], attempted := [] }) := by
    simp only [stepGroup, hg11, hg12, he]
    rw [if_pos hw]
  rw [HG, hchats]
  have A := foldChats_action env
    (eventUid t (env.snapshot cfg.queue cfg.subqueue).next_event_type)
    (notifyText (env.snapshot cfg.queue cfg.subqueue).next_event_type t)
    pre suf (gs1.foldl (stepGroup env) { db := db, sent := [], attempted := [] }) x cfg
    hxpre hxsuf hA1get hl hA1sent hA1att
  rcases hd : env.deliver x with _ | em
  · obtain ⟨hAatt, hAok, -⟩ := A
    obtain ⟨hBget, hBsent⟩ := hAok hd
    have F2 := foldGroups_mixed env gs2 _ x _ hBget (fun g' hg' => Or.inl (hgs2 g' hg'))
    refine ⟨F2.2.2.mpr hAatt, fun _ => ⟨F2.1, fun m => (F2.2.1 m).trans (hBsent m)⟩, ?_⟩
    · intro em hem
      exact absurd hem (by simp)
  · obtain ⟨hAatt, -, hAerr⟩ := A
    obtain ⟨hBsent, hBforb, hBother⟩ := hAerr em hd
    by_cases hf : strContains em "Forbidden" = true
    · have F2 := foldGroups_mixed env gs2 _ x _ (hBforb hf) (fun g' hg' => Or.inl (hgs2 g' hg'))
      refine ⟨F2.2.2.mpr hAatt, ?_, ?_⟩
      · intro hOk
        exact absurd hOk (by simp)
      · intro em' hem'
        obtain rfl : em = em' := (SendResult.Error.injEq _ _).mp hem'
        refine ⟨fun m hm => hBsent m ((F2.2.1 m).mp hm), fun _ => F2.1, fun hf' => ?_⟩
        · rw [hf] at hf'
          exact absurd hf' (by simp)
    · have hf' : strContains em "Forbidden" = false := by
        cases hcs : strContains em "Forbidden"
        · rfl
        · exact absurd hcs hf
      have F2 := foldGroups_mixed env gs2 _ x _ (hBother hf') (fun g' hg' => Or.inl (hgs2 g' hg'))
      refine ⟨F2.2.2.mpr hAatt, ?_, ?_⟩
      · intro hOk
        exact absurd hOk (by simp)
      · intro em' hem'
        obtain rfl : em = em' := (SendResult.Error.injEq _ _).mp hem'
        refine ⟨fun m hm => hBsent m ((F2.2.1 m).mp hm), fun hff => ?_, fun _ => F2.1⟩
        · rw [hff] at hf'
          exact absurd hf' (by simp)

/-! ## C1 — at-most-once delivery per (subscriber, event id) -/

/-- C1: for a fixed subscriber and event id at most one delivered alert is
ever produced.  (i) If the subscriber's `last_notified_event` already equals
its group's current event id, the cycle delivers nothing to it.  (ii) Any
successful delivery immediately sets `last_notified_event` to the group's
event id (leaving group selection and the enabled flag unchanged).
(iii) Hence running the cycle again, with the snapshot and subscriber state
resulting from the first cycle unchanged, delivers no second message. -/
theorem c1_at_most_once (env : CycleEnv) (db : List (Nat × ChatConfig)) (x : Nat)
    (cfg : ChatConfig) (hnodup : (db.map Prod.fst).Nodup)
    (hget : dbGet db x = some cfg) :
    (cfg.last_notified_event = groupUid env cfg.queue cfg.subqueue →
        ∀ m, (x, m) ∉ (check_all_chats env db).sent)
    ∧ (∀ m, (x, m) ∈ (check_all_chats env db).sent →
        ∃ cfg', dbGet (check_all_chats env db).db x = some cfg'
          ∧ cfg'.last_notified_event = groupUid env cfg.queue cfg.subqueue
          ∧ cfg'.queue = cfg.queue ∧ cfg'.subqueue = cfg.subqueue
          ∧ cfg'.notifications_enabled = cfg.notifications_enabled)
    ∧ (∀ m, (x, m) ∈ (check_all_chats env db).sent →
        ∀ m', (x, m') ∉ (check_all_chats env (check_all_chats env db).db).sent) := by
  have hpart2 : ∀ m, (x, m) ∈ (check_all_chats env db).sent →
      ∃ cfg', dbGet (check_all_chats env db).db x = some cfg'
        ∧ cfg'.last_notified_event = groupUid env cfg.queue cfg.subqueue
        ∧ cfg'.queue = cfg.queue ∧ cfg'.subqueue = cfg.subqueue
        ∧ cfg'.notifications_enabled = cfg.notifications_enabled := by
    intro m hm
    by_cases hen : cfg.notifications_enabled = true
    · rcases he : (env.snapshot cfg.queue cfg.subqueue).next_event_time with _ | t
      · exact absurd hm ((cycle_skip_window env db x cfg hnodup hget (Or.inl he)).2.1 m)
      · by_cases hw : 14 ≤ (60 * (t : ℚ) - env.now) / 60 ∧ (60 * (t : ℚ) - env.now) / 60 ≤ 16
        · by_cases hl : cfg.last_notified_event
              = some (eventUid t (env.snapshot cfg.queue cfg.subqueue).next_event_type)
          · have hmm : cfg.last_notified_event = groupUid env cfg.queue cfg.subqueue := by
              rw [groupUid, he]
              exact hl
            exact absurd hm ((cycle_skip_match env db x cfg hnodup hget hmm).2.1 m)
          · have A := cycle_action env db x cfg t hnodup hget hen he hw hl
            rcases hd : env.deliver x with _ | em
            · obtain ⟨hBget, -⟩ := A.2.1 hd
              refine ⟨_, hBget, ?_, rfl, rfl, rfl⟩
              rw [groupUid, he]
            · exact absurd hm ((A.2.2 em hd).1 m)
        · refine absurd hm ((cycle_skip_window env db x cfg hnodup hget (Or.inr ?_)).2.1 m)
          intro t' ht'
          rw [he] at ht'
          obtain rfl : t = t' := Option.some.inj ht'
          exact hw
    · have hen' : cfg.notifications_enabled = false := by
        cases hcs : cfg.notifications_enabled
        · rfl
        · exact absurd hcs hen
      exact absurd hm ((cycle_skip_disabled env db x cfg hnodup hget hen').2.1 m)
  refine ⟨?_, hpart2, ?_⟩
  · intro hmatch m
    exact (cycle_skip_match env db x cfg hnodup hget hmatch).2.1 m
  · intro m hm m'
    obtain ⟨cfg', hget', hl', hq', hsq', -⟩ := hpart2 m hm
    have hnodup' : ((check_all_chats env db).db.map Prod.fst).Nodup := by
      rw [check_all_chats_keys]
      exact hnodup
    have hmatch' : cfg'.last_notified_event = groupUid env cfg'.queue cfg'.subqueue := by
      rw [hq', hsq']
      exact hl'
    exact (cycle_skip_match env (check_all_chats env db).db x cfg' hnodup' hget' hmatch').2.1 m'

/-- Witness for C1 at a concrete input: a subscriber already marked with the
pending event's id receives nothing from the cycle. -/
theorem c1_witness :
    ((exDbNotified.map Prod.fst).Nodup
      ∧ dbGet exDbNotified 5
          = some { queue := "1", subqueue := "1", notifications_enabled := true,
                   last_notified_event := some "18:00_Відключення 🔌" }
      ∧ (some "18:00_Відключення 🔌" : Option String) = groupUid (exEnvAt 63960) "1" "1")
    ∧ ∀ m, (5, m) ∉ (check_all_chats (exEnvAt 63960) exDbNotified).sent := by
  refine ⟨⟨by decide, by decide, by decide⟩, ?_⟩
  exact (c1_at_most_once (exEnvAt 63960) exDbNotified 5
    { queue := "1", subqueue := "1", notifications_enabled := true,
      last_notified_event := some "18:00_Відключення 🔌" }
    (by decide) (by decide)).1 (by decide)

/-! ## C5 — the 14–16 minute pre-alert window -/

/-- C5: a subscribed, not-yet-notified chat has a delivery attempted in the
cycle exactly when the group's pending transition is between 14 and 16
minutes away (inclusive on both ends): `minutes_left = (60·t − now)/60` and
the test is the closed interval `14 ≤ minutes_left ≤ 16`. -/
theorem c5_window (env : CycleEnv) (db : List (Nat × ChatConfig)) (x : Nat)
    (cfg : ChatConfig) (t : Nat)
    (hnodup : (db.map Prod.fst).Nodup)
    (hget : dbGet db x = some cfg) (hen : cfg.notifications_enabled = true)
    (he : (env.snapshot cfg.queue cfg.subqueue).next_event_time = some t)
    (hl : cfg.last_notified_event
        ≠ some (eventUid t (env.snapshot cfg.queue cfg.subqueue).next_event_type)) :
    (x ∈ (check_all_chats env db).attempted
      ↔ (14 ≤ (60 * (t : ℚ) - env.now) / 60 ∧ (60 * (t : ℚ) - env.now) / 60 ≤ 16)) := by
  constructor
  · intro hm
    by_cases hw : 14 ≤ (60 * (t : ℚ) - env.now) / 60 ∧ (60 * (t : ℚ) - env.now) / 60 ≤ 16
    · exact hw
    · refine absurd hm ((cycle_skip_window env db x cfg hnodup hget (Or.inr ?_)).2.2)
      intro t' ht'
      rw [he] at ht'
      obtain rfl : t = t' := Option.some.inj ht'
      exact hw
  · intro hw
    exact (cycle_action env db x cfg t hnodup hget hen he hw hl).1

/-- Witness for C5 at the boundary values: a transition at 18:00 triggers an
attempt when `now` is exactly 14, 15 or 16 minutes before it, and does not at
13.99 or 16.01 minutes before it. -/
theorem c5_witness :
    5 ∈ (check_all_chats (exEnvAt 63960) exDb).attempted
    ∧ 5 ∈ (check_all_chats (exEnvAt 63900) exDb).attempted
    ∧ 5 ∈ (check_all_chats (exEnvAt 63840) exDb).attempted
    ∧ 5 ∉ (check_all_chats (exEnvAt (319803 / 5)) exDb).attempted
    ∧ 5 ∉ (check_all_chats (exEnvAt (319197 / 5)) exDb).attempted := by
  have hc : ∀ q : ℚ, dbGet exDb 5
      = some { queue := "1", subqueue := "1", notifications_enabled := true,
               last_notified_event := none } := fun _ => by decide
  refine ⟨?_, ?_, ?_, ?_, ?_⟩
  · exact (c5_window (exEnvAt 63960) exDb 5 _ 1080 (by decide) (hc 0) (by decide)
      (by decide) (by decide)).mpr (by norm_num [exEnvAt])
  · exact (c5_window (exEnvAt 63900) exDb 5 _ 1080 (by decide) (hc 0) (by decide)
      (by decide) (by decide)).mpr (by norm_num [exEnvAt])
  · exact (c5_window (exEnvAt 63840) exDb 5 _ 1080 (by decide) (hc 0) (by decide)
      (by decide) (by decide)).mpr (by norm_num [exEnvAt])
  · intro hm
    have := (c5_window (exEnvAt (319803 / 5)) exDb 5 _ 1080 (by decide) (hc 0) (by decide)
      (by decide) (by decide)).mp hm
    norm_num [exEnvAt] at this
  · intro hm
    have := (c5_window (exEnvAt (319197 / 5)) exDb 5 _ 1080 (by decide) (hc 0) (by decide)
      (by decide) (by decide)).mp hm
    norm_num [exEnvAt] at this

/-! ## C6 — delivery failure handling -/

/-- C6: when the send raises an error, nothing is delivered; a `Forbidden`
failure disables the subscriber's notifications (its `last_notified_event` is
untouched) and the next cycle does not retry it; any other failure leaves the
subscriber's config entirely unchanged, so the next cycle (with the event
still inside the window) attempts the same event again. -/
theorem c6_failure_handling (env : CycleEnv) (db : List (Nat × ChatConfig)) (x : Nat)
    (cfg : ChatConfig) (t : Nat) (em : String)
    (hnodup : (db.map Prod.fst).Nodup)
    (hget : dbGet db x = some cfg) (hen : cfg.notifications_enabled = true)
    (he : (env.snapshot cfg.queue cfg.subqueue).next_event_time = some t)
    (hw : 14 ≤ (60 * (t : ℚ) - env.now) / 60 ∧ (60 * (t : ℚ) - env.now) / 60 ≤ 16)
    (hl : cfg.last_notified_event
        ≠ some (eventUid t (env.snapshot cfg.queue cfg.subqueue).next_event_type))
    (hd : env.deliver x = SendResult.Error em) :
    (∀ m, (x, m) ∉ (check_all_chats env db).sent)
    ∧ (strContains em "Forbidden" = true →
        dbGet (check_all_chats env db).db x = some { cfg with notifications_enabled := false }
        ∧ x ∉ (check_all_chats env (check_all_chats env db).db).attempted
        ∧ ∀ m, (x, m) ∉ (check_all_chats env (check_all_chats env db).db).sent)
    ∧ (strContains em "Forbidden" = false →
        dbGet (check_all_chats env db).db x = some cfg
        ∧ x ∈ (check_all_chats env (check_all_chats env db).db).attempted) := by
  have A := cycle_action env db x cfg t hnodup hget hen he hw hl
  obtain ⟨-, -, hAerr⟩ := A
  obtain ⟨hBsent, hBforb, hBother⟩ := hAerr em hd
  have hnodup' : ((check_all_chats env db).db.map Prod.fst).Nodup := by
    rw [check_all_chats_keys]
    exact hnodup
  refine ⟨hBsent, fun hf => ?_, fun hf => ?_⟩
  · have hget' := hBforb hf
    have hdis := cycle_skip_disabled env (check_all_chats env db).db x
      { cfg with notifications_enabled := false } hnodup' hget' rfl
    exact ⟨hget', hdis.2.2, hdis.2.1⟩
  · have hget' := hBother hf
    have A2 := cycle_action env (check_all_chats env db).db x cfg t hnodup' hget' hen he hw hl
    exact ⟨hget', A2.1⟩

/-- Witness for C6: a `Forbidden` failure disables the subscriber and the
next cycle skips it; a transient failure leaves the config unchanged and the
next cycle attempts the delivery again. -/
theorem c6_witness :
    (strContains "Telegram server says - Forbidden: bot was blocked by the user" "Forbidden" = true
      ∧ (∀ m, (5, m) ∉ (check_all_chats exEnvForbidden exDb).sent)
      ∧ dbGet (check_all_chats exEnvForbidden exDb).db 5
          = some { queue := "1", subqueue := "1", notifications_enabled := false,
                   last_notified_event := none }
      ∧ 5 ∉ (check_all_chats exEnvForbidden (check_all_chats exEnvForbidden exDb).db).attempted)
    ∧ (strContains "Telegram server says - Bad Gateway" "Forbidden" = false
      ∧ (∀ m, (5, m) ∉ (check_all_chats exEnvFlaky exDb).sent)
      ∧ dbGet (check_all_chats exEnvFlaky exDb).db 5
          = some { queue := "1", subqueue := "1", notifications_enabled := true,
                   last_notified_event := none }
      ∧ 5 ∈ (check_all_chats exEnvFlaky (check_all_chats exEnvFlaky exDb).db).attempted) := by
  have hF := c6_failure_handling exEnvForbidden exDb 5
    { queue := "1", subqueue := "1", notifications_enabled := true, last_notified_event := none }
    1080 "Telegram server says - Forbidden: bot was blocked by the user"
    (by decide) (by decide) (by decide) (by decide) (by norm_num [exEnvForbidden]) (by decide) rfl
  have hO := c6_failure_handling exEnvFlaky exDb 5
    { queue := "1", subqueue := "1", notifications_enabled := true, last_notified_event := none }
    1080 "Telegram server says - Bad Gateway"
    (by decide) (by decide) (by decide) (by decide) (by norm_num [exEnvFlaky]) (by decide) rfl
  have hFf := hF.2.1 (by decide)
  have hOf := hO.2.2 (by decide)
  exact ⟨⟨by decide, hF.1, hFf.1, hFf.2.1⟩, ⟨by decide, hO.1, hOf.1, hOf.2⟩⟩

/-! ## C8 — event id identity -/

theorem strData_append (a b : String) : (a ++ b).data = a.data ++ b.data := rfl

theorem strEq_of_data (a b : String) (h : a.data = b.data) : a = b := by
  cases a
  cases b
  congr 1

theorem digitChar_inj : ∀ a, a < 10 → ∀ b, b < 10 → digitChar a = digitChar b → a = b := by
  decide

theorem eventUid_data (u : Nat) (s : String) :
    (eventUid u s).data
      = digitChar (u / 60 / 10) :: digitChar (u / 60 % 10) :: ':' ::
        digitChar (u % 60 / 10) :: digitChar (u % 60 % 10) :: '_' :: s.data := rfl

theorem eventUid_inj (t t' : Nat) (ty ty' : String) (ht : t < 1440) (ht' : t' < 1440)
    (h : eventUid t ty = eventUid t' ty') : t = t' ∧ ty = ty' := by
  have hd := congrArg String.data h
  rw [eventUid_data, eventUid_data] at hd
  simp only [List.cons.injEq, true_and] at hd
  obtain ⟨h1, h2, h3, h4, h5⟩ := hd
  have e1 := digitChar_inj _ (by omega) _ (by omega) h1
  have e2 := digitChar_inj _ (by omega) _ (by omega) h2
  have e3 := digitChar_inj _ (by omega) _ (by omega) h3
  have e4 := digitChar_inj _ (by omega) _ (by omega) h4
  exact ⟨by omega, strEq_of_data ty ty' h5⟩

/-- C8 (counterexample): the event id does not include the group.  Two
distinct transitions in different supply groups with coinciding clock time
and type serialize to the SAME event id, and the dedup comparison is scoped
per subscriber, not per group: a subscriber notified of group `1.1`'s 18:00
switch-off who then changes the chat to group `2.1` is silently skipped for
group `2.1`'s distinct 18:00 switch-off (no attempt, no message). -/
theorem c8_counterexample :
    groupUid (exEnvAt 63960) "1" "1" = groupUid (exEnvAt 63960) "2" "1"
    ∧ (∀ m, (5, m) ∉ (check_all_chats (exEnvAt 63960) exDbSwitched).sent)
    ∧ 5 ∉ (check_all_chats (exEnvAt 63960) exDbSwitched).attempted := by
  have hskip := cycle_skip_match (exEnvAt 63960) exDbSwitched 5
    { queue := "2", subqueue := "1", notifications_enabled := true,
      last_notified_event := some "18:00_Відключення 🔌" }
    (by decide) (by decide) (by decide)
  exact ⟨by decide, hskip.2.1, hskip.2.2⟩

/-- C8 (amended): the serialized event id is a stable function of the pair
`(nextTransitionAt, nextTransitionType)` alone — two snapshots (computed at
any times, for any groups) agreeing on that pair produce the same id, and the
id determines the pair (distinct times-of-day or types give distinct ids).
The id does NOT include the group: snapshots of different groups agreeing on
the pair share one id (per `c8_counterexample` the dedup comparison is only
per subscriber, so a subscriber switching groups can be skipped for a
distinct transition). -/
theorem c8_amended (env env' : CycleEnv) (q sq q' sq' : String)
    (t t' : Nat) (ty ty' : String) (ht : t < 1440) (ht' : t' < 1440)
    (h1 : (env.snapshot q sq).next_event_time = (env'.snapshot q' sq').next_event_time)
    (h2 : (env.snapshot q sq).next_event_type = (env'.snapshot q' sq').next_event_type) :
    groupUid env q sq = groupUid env' q' sq'
    ∧ (eventUid t ty = eventUid t' ty' → t = t' ∧ ty = ty') := by
  constructor
  · rw [groupUid, groupUid, h1, h2]
  · exact eventUid_inj t t' ty ty' ht ht'

/-- Witness for C8's amended theorem: two snapshots of different groups with
the same 18:00 transition share the id `"18:00_Відключення 🔌"`, and two
events differing in time or type get different ids. -/
theorem c8_witness :
    ((exEnvAt 63960).snapshot "1" "1").next_event_time
        = ((exEnvAt 63960).snapshot "2" "1").next_event_time
    ∧ groupUid (exEnvAt 63960) "1" "1" = groupUid (exEnvAt 63960) "2" "1"
    ∧ eventUid 1080 "Відключення 🔌" = "18:00_Відключення 🔌"
    ∧ ¬eventUid 1080 "Відключення 🔌" = eventUid 1081 "Відключення 🔌"
    ∧ ¬eventUid 1080 "Відключення 🔌" = eventUid 1080 "Включення 💡" := by
  refine ⟨rfl, (c8_amended (exEnvAt 63960) (exEnvAt 63960) "1" "1" "2" "1"
    1080 1080 "x" "x" (by decide) (by decide) rfl rfl).1, by decide, ?_, ?_⟩
  · intro h
    have := (c8_amended (exEnvAt 63960) (exEnvAt 63960) "1" "1" "2" "1"
      1080 1081 "Відключення 🔌" "Відключення 🔌" (by decide) (by decide) rfl rfl).2 h
    omega
  · intro h
    have := ((c8_amended (exEnvAt 63960) (exEnvAt 63960) "1" "1" "2" "1"
      1080 1080 "Відключення 🔌" "Включення 💡" (by decide) (by decide) rfl rfl).2 h).2
    exact absurd this (by decide)

end LightBot
